import Mathlib

/-!  Verification development for the cloudscraper-rs core: challenge-form
parsing (`challenges/core/analysis.rs`), the IUAM delay extractor
(`challenges/solvers/javascript_v1.rs`), the pattern detector
(`challenges/detectors/mod.rs`), the orchestrator retry loop
(`cloudscraper.rs`), proxy health management (`modules/proxy/mod.rs`),
per-domain timing state (`modules/state/mod.rs`), the rate-limit handler
(`challenges/solvers/rate_limit.rs`) and adaptive timing
(`modules/adaptive_timing/mod.rs`).

Modelling conventions: Rust machine floats (`f32`/`f64`) become `ℚ`;
`Instant`/`SystemTime` become natural-number (or rational) timestamps passed
explicitly; random samples drawn from `rand` become explicit parameters;
external crates (the `url` joiner, `chrono` date parsing) become function
parameters.  `HashMap`s become association lists in which an insert
replaces the first existing binding, mirroring key-based replacement.  -/

namespace Cloudscraper

/-- First-match lookup in an association list; models `HashMap::get` (the
lists we build carry at most one binding per key). -/
def alookup {α : Type} : List (String × α) → String → Option α
  | [], _ => none
  | p :: m, k => if p.1 = k then some p.2 else alookup m k

/-- Key-based insert that replaces an existing binding; models
`HashMap::insert` on association lists with unique keys. -/
def insertReplace : List (String × String) → String → String → List (String × String)
  | [], k, v => [(k, v)]
  | p :: m, k, v => if p.1 = k then (k, v) :: m else p :: insertReplace m k v

/-- Collect key-value pairs into a map; a later pair overwrites an earlier
one with the same key, exactly as `Iterator::collect::<HashMap<_, _>>`. -/
def collectMap (l : List (String × String)) : List (String × String) :=
  l.foldl (fun m kv => insertReplace m kv.1 kv.2) []

/-- Lookup returning the last binding of a key in a plain pair list. -/
def lastLookup (l : List (String × String)) (k : String) : Option String :=
  alookup l.reverse k

/-- Left-biased choice on options, used to state first-match facts. -/
def optOr {α : Type} : Option α → Option α → Option α
  | some v, _ => some v
  | none, o => o

/-- Read-only view of an HTTP response as consumed by the challenge layer
(`ChallengeResponse` in `challenges/core/types.rs`).  Header names are
stored lowercased, as `http::HeaderMap` normalises them. -/
structure ChallengeResponse where
  url : String
  url_host : Option String
  status : Nat
  headers : List (String × String)
  body : String

/-- ASCII lower-casing of a character, modelling
`u8::to_ascii_lowercase` (Lean's `Char.toLower` maps exactly the ASCII
range `A`-`Z`). -/
def lowerList (cs : List Char) : List Char := cs.map Char.toLower

/-- Whether the second list starts with the first. -/
def listStartsWith : List Char → List Char → Bool
  | [], _ => true
  | _ :: _, [] => false
  | p :: ps, c :: cs => p = c && listStartsWith ps cs

/-- Detect whether a response is served by Cloudflare: the `Server` header
must start, ASCII-case-insensitively, with `cloudflare`
(`is_cloudflare_response` in `challenges/core/analysis.rs`). -/
def is_cloudflare_response (r : ChallengeResponse) : Bool :=
  match alookup r.headers "server" with
  | some v => listStartsWith "cloudflare".toList (lowerList v.toList)
  | none => false

/-- Planned follow-up POST produced by a solver (`ChallengeSubmission`).
`wait` is in milliseconds. -/
structure ChallengeSubmission where
  method : String
  url : String
  form_fields : List (String × String)
  headers : List (String × String)
  wait : Nat

/-- Snapshot of the IUAM challenge form (`IuamChallengeBlueprint`). -/
structure IuamChallengeBlueprint where
  action : String
  hidden_fields : List (String × String)

/-- Materialise a blueprint into a submission
(`IuamChallengeBlueprint::to_submission`).  The Rust code extends the
caller payload with the hidden fields and collects the result into a
`HashMap`; `join` models `url::Url::join` of the external `url` crate,
returning `none` on a parse error. -/
def IuamChallengeBlueprint.to_submission (bp : IuamChallengeBlueprint)
    (join : String → String → Option String) (base_url : String)
    (payload : List (String × String)) : Option ChallengeSubmission :=
  let form_fields := collectMap (payload ++ bp.hidden_fields)
  (join base_url bp.action).map (fun u =>
    { method := "POST", url := u, form_fields := form_fields, headers := [], wait := 0 })

theorem alookup_insertReplace (m : List (String × String)) (k v k' : String) :
    alookup (insertReplace m k v) k' = if k' = k then some v else alookup m k' := by
  induction m with
  | nil =>
    by_cases h : k' = k
    · simp [insertReplace, alookup, h]
    · simp [insertReplace, alookup, h, Ne.symm h]
  | cons p m ih =>
    by_cases hp : p.1 = k
    · by_cases h : k' = k
      · simp [insertReplace, alookup, hp, h]
      · simp [insertReplace, alookup, hp, h, Ne.symm h]
    · by_cases h : k' = k
      · subst h
        simp [insertReplace, alookup, hp, ih]
      · simp [insertReplace, alookup, hp, h, ih]

theorem alookup_append {α : Type} (a b : List (String × α)) (k : String) :
    alookup (a ++ b) k = optOr (alookup a k) (alookup b k) := by
  induction a with
  | nil => simp [alookup, optOr]
  | cons p a ih =>
    simp only [List.cons_append, alookup]
    by_cases h : p.1 = k
    · simp [h, optOr]
    · rw [if_neg h, if_neg h]
      exact ih

theorem alookup_collect_foldl (l : List (String × String)) :
    ∀ (m : List (String × String)) (k : String),
      alookup (l.foldl (fun m kv => insertReplace m kv.1 kv.2) m) k =
        optOr (lastLookup l k) (alookup m k) := by
  induction l with
  | nil => intro m k; simp [lastLookup, alookup, optOr]
  | cons kv l ih =>
    intro m k
    simp only [List.foldl_cons, ih, lastLookup, List.reverse_cons, alookup_append,
      alookup_insertReplace]
    by_cases h : k = kv.1
    · rw [if_pos h]
      have hk : alookup [kv] k = some kv.2 := by simp [alookup, h]
      rw [hk]
      cases alookup l.reverse k <;> simp [optOr]
    · rw [if_neg h]
      have hk : alookup [kv] k = none := by simp [alookup, Ne.symm h]
      rw [hk]
      cases alookup l.reverse k <;> simp [optOr]

theorem alookup_collectMap (l : List (String × String)) (k : String) :
    alookup (collectMap l) k = lastLookup l k := by
  have h := alookup_collect_foldl l [] k
  rw [collectMap, h]
  cases lastLookup l k <;> simp [optOr, alookup]

theorem lastLookup_append (a b : List (String × String)) (k : String) :
    lastLookup (a ++ b) k = optOr (lastLookup b k) (lastLookup a k) := by
  simp [lastLookup, List.reverse_append, alookup_append]

/-- Claim C1 (counterexample): with hidden field `r = "hidden"` and caller
payload `r = "payload"`, the materialised form carries the hidden value —
the payload does NOT win the collision, refuting the claim as stated. -/
theorem iuam_payload_precedence_cex :
    (IuamChallengeBlueprint.to_submission ⟨"/a", [("r", "hidden")]⟩
        (fun _ a => some a) "https://example.com" [("r", "payload")]).map
        (fun s => alookup s.form_fields "r") = some (some "hidden") ∧
      ¬ ((IuamChallengeBlueprint.to_submission ⟨"/a", [("r", "hidden")]⟩
        (fun _ a => some a) "https://example.com" [("r", "payload")]).map
        (fun s => alookup s.form_fields "r") = some (some "payload")) := by
  decide

/-- Claim C1 (amended): `to_submission` yields a submission whose URL is
`base_url.join(action)` and whose form-field map is payload ∪ hidden
fields where, on a key present in both, the HIDDEN field's value wins
(it is inserted last into the `HashMap`, and the last write wins). -/
theorem iuam_to_submission_spec (bp : IuamChallengeBlueprint)
    (join : String → String → Option String) (base_url : String)
    (payload : List (String × String)) (sub : ChallengeSubmission)
    (h : bp.to_submission join base_url payload = some sub) :
    join base_url bp.action = some sub.url ∧
      sub.method = "POST" ∧
      ∀ k, alookup sub.form_fields k =
        optOr (lastLookup bp.hidden_fields k) (lastLookup payload k) := by
  simp only [IuamChallengeBlueprint.to_submission] at h
  cases hj : join base_url bp.action with
  | none => rw [hj] at h; simp at h
  | some u =>
    rw [hj] at h
    simp only [Option.map_some', Option.some.injEq] at h
    subst h
    exact ⟨rfl, rfl, fun k => by simp only [alookup_collectMap, lastLookup_append]⟩

/-- Witness for the amended C1 theorem at a concrete blueprint. -/
theorem iuam_to_submission_spec_witness :
    (some "https://example.com/act" : Option String) = some "https://example.com/act" ∧
      "POST" = "POST" ∧
      ∀ k, alookup (collectMap ([("jschl_answer", "42")] ++ [("r", "abc")])) k =
        optOr (lastLookup [("r", "abc")] k) (lastLookup [("jschl_answer", "42")] k) := by
  have h := iuam_to_submission_spec ⟨"/act", [("r", "abc")]⟩
    (fun b a => some (b ++ a)) "https://example.com" [("jschl_answer", "42")]
    { method := "POST", url := "https://example.com/act",
      form_fields := collectMap ([("jschl_answer", "42")] ++ [("r", "abc")]),
      headers := [], wait := 0 } rfl
  exact h

/-- Drop a literal from the front of a character stream, comparing
ASCII-case-insensitively (the solver regexes are built with
`case_insensitive(true)`). -/
def dropLit : List Char → List Char → Option (List Char)
  | [], cs => some cs
  | _ :: _, [] => none
  | l :: ls, c :: cs => if c.toLower = l.toLower then dropLit ls cs else none

/-- Greedy whitespace skip; models a maximal-munch regex `\s*` whose
continuation starts with a non-whitespace character. -/
def skipWs : List Char → List Char
  | [] => []
  | c :: cs => if c.isWhitespace then skipWs cs else c :: cs

/-- Split a maximal run of ASCII digits from the front (regex `[0-9]+`). -/
def takeDigits : List Char → List Char × List Char
  | [] => ([], [])
  | c :: cs =>
    if c.isDigit then
      let r := takeDigits cs
      (c :: r.1, r.2)
    else ([], c :: cs)

/-- Numeric value of a digit run. -/
def digitsToNat (ds : List Char) : Nat :=
  ds.foldl (fun n c => n * 10 + (c.toNat - 48)) 0

/-- Match the regex fragment `\r?\n` at the head of the stream: an optional
carriage return followed by a mandatory line feed. -/
def dropCRLF (cs : List Char) : Option (List Char) :=
  match cs with
  | c :: rest =>
    if c = '\r' then
      match rest with
      | c2 :: rest2 => if c2 = '\n' then some rest2 else none
      | [] => none
    else if c = '\n' then some rest else none
  | [] => none

/-- Match the `DELAY_RE` regex `submit\(\);\r?\n\s*\x7d,\s*([0-9]+)` at the
head of the stream, returning the captured digit run.  Note the mandatory
line break (`\r?\n`) between `submit();` and the closing brace. -/
def matchDelayAt (cs : List Char) : Option (List Char) :=
  (dropLit "submit();".toList cs).bind fun cs =>
    (dropCRLF cs).bind fun cs =>
      (dropLit "\x7d,".toList (skipWs cs)).bind fun cs =>
        let ds := (takeDigits (skipWs cs)).1
        if ds.isEmpty then none else some ds

/-- Leftmost-match scan of the delay regex over the body. -/
def findDelay : List Char → Option (List Char)
  | [] => none
  | c :: cs =>
    match matchDelayAt (c :: cs) with
    | some ds => some ds
    | none => findDelay cs

/-- Extract the required resubmission wait in milliseconds (`extract_delay`
in `challenges/solvers/javascript_v1.rs`): leftmost match of `DELAY_RE`,
then a `u64` parse of the captured digits.  Any failure is the
`DelayNotFound` error, modelled as `none`. -/
def extract_delay (body : String) : Option Nat :=
  match findDelay body.toList with
  | some ds => if digitsToNat ds < 2 ^ 64 then some (digitsToNat ds) else none
  | none => none

/-- Claim C2 (counterexample): on the one-line S2 snippet
`setTimeout(function()\x7b submit(); \x7d, 4000)` the delay extractor finds
no match — `DELAY_RE` demands a line break right after `submit();` — so
the solver fails with `DelayNotFound` instead of producing wait = 4000 ms. -/
theorem extract_delay_oneline_cex :
    extract_delay "setTimeout(function()\x7b submit(); \x7d, 4000)" = none ∧
      ¬ extract_delay "setTimeout(function()\x7b submit(); \x7d, 4000)" = some 4000 := by
  decide

theorem dropLit_self (lit rest : List Char) : dropLit lit (lit ++ rest) = some rest := by
  induction lit with
  | nil => rfl
  | cons c lit ih => simp [dropLit, ih]

theorem skipWs_append (ws rest : List Char) (hws : ∀ c ∈ ws, c.isWhitespace = true)
    (hr : ∀ c ∈ rest.take 1, c.isWhitespace = false) : skipWs (ws ++ rest) = rest := by
  induction ws with
  | nil =>
    cases rest with
    | nil => rfl
    | cons c cs =>
      have := hr c (by simp)
      simp [skipWs, this]
  | cons c ws ih =>
    have := hws c (by simp)
    simp only [List.cons_append, skipWs, this, if_true]
    exact ih (fun d hd => hws d (by simp [hd]))

theorem takeDigits_append (ds rest : List Char) (hds : ∀ c ∈ ds, c.isDigit = true)
    (hr : ∀ c ∈ rest.take 1, c.isDigit = false) : takeDigits (ds ++ rest) = (ds, rest) := by
  induction ds with
  | nil =>
    cases rest with
    | nil => rfl
    | cons c cs =>
      have := hr c (by simp)
      simp [takeDigits, this]
  | cons c ds ih =>
    have := hds c (by simp)
    simp only [List.cons_append, takeDigits, this, if_true, List.append_eq]
    rw [ih (fun d hd => hds d (by simp [hd]))]

/-- The ten ASCII digit characters. -/
def digitChars : List Char := ['0', '1', '2', '3', '4', '5', '6', '7', '8', '9']

theorem mem_digitChars_isDigit (c : Char) (h : c ∈ digitChars) : c.isDigit = true := by
  fin_cases h <;> decide

theorem mem_digitChars_not_ws (c : Char) (h : c ∈ digitChars) : c.isWhitespace = false := by
  fin_cases h <;> decide

/-- Claim C2 (amended): the delay regex requires a line break between
`submit();` and the closing `\x7d,`.  With the break present (as in the
repository's own test fixtures) the extractor returns the captured digits
as a millisecond wait; the one-line spelling of the S2 snippet fails with
the delay-not-found error. -/
theorem extract_delay_spec (ds ws1 ws2 : List Char) (hne : ds ≠ [])
    (hds : ∀ c ∈ ds, c ∈ digitChars) (hlt : digitsToNat ds < 2 ^ 64)
    (hws1 : ∀ c ∈ ws1, c.isWhitespace = true) (hws2 : ∀ c ∈ ws2, c.isWhitespace = true) :
    extract_delay (String.mk ("submit();".toList ++
        '\n' :: (ws1 ++ '\x7d' :: ',' :: (ws2 ++ (ds ++ [')']))))) = some (digitsToNat ds) ∧
      extract_delay
        "<script>setTimeout(function()\x7b submit();\n                \x7d, 4000);</script>" =
        some 4000 := by
  constructor
  · have h1 : skipWs (ws1 ++ '\x7d' :: ',' :: (ws2 ++ (ds ++ [')']))) =
        '\x7d' :: ',' :: (ws2 ++ (ds ++ [')'])) := by
      refine skipWs_append ws1 _ hws1 ?_
      intro c hc
      simp at hc
      subst hc
      decide
    have h2 : skipWs (ws2 ++ (ds ++ [')'])) = ds ++ [')'] := by
      refine skipWs_append ws2 _ hws2 ?_
      intro c hc
      have hd : c ∈ ds := by
        cases ds with
        | nil => exact absurd rfl hne
        | cons e dtl =>
          simp at hc
          simp [hc]
      exact mem_digitChars_not_ws c (hds c hd)
    have h3 : takeDigits (ds ++ [')']) = (ds, [')']) :=
      takeDigits_append ds [')'] (fun c hc => mem_digitChars_isDigit c (hds c hc)) (by decide)
    have hmatch : matchDelayAt ("submit();".toList ++
        '\n' :: (ws1 ++ '\x7d' :: ',' :: (ws2 ++ (ds ++ [')'])))) = some ds := by
      have hdrop : dropLit "\x7d,".toList ('\x7d' :: ',' :: (ws2 ++ (ds ++ [')']))) =
          some (ws2 ++ (ds ++ [')'])) := dropLit_self "\x7d,".toList (ws2 ++ (ds ++ [')']))
      have hempty : ds.isEmpty = false := by
        cases ds with
        | nil => exact absurd rfl hne
        | cons d dtl => rfl
      unfold matchDelayAt
      rw [dropLit_self, Option.some_bind]
      simp only [dropCRLF]
      rw [if_neg (show ¬(('\n' : Char) = '\r') by decide)]
      simp only [if_true]
      rw [Option.some_bind, h1, hdrop, Option.some_bind, h2, h3]
      simp [hempty]
    have hfind : findDelay ("submit();".toList ++
        '\n' :: (ws1 ++ '\x7d' :: ',' :: (ws2 ++ (ds ++ [')'])))) = some ds := by
      have hcons : ("submit();".toList ++
          '\n' :: (ws1 ++ '\x7d' :: ',' :: (ws2 ++ (ds ++ [')'])))) =
          's' :: ("ubmit();".toList ++
            '\n' :: (ws1 ++ '\x7d' :: ',' :: (ws2 ++ (ds ++ [')'])))) := rfl
      rw [hcons, findDelay, ← hcons, hmatch]
    show (match findDelay ("submit();".toList ++
        '\n' :: (ws1 ++ '\x7d' :: ',' :: (ws2 ++ (ds ++ [')'])))) with
      | some ds => if digitsToNat ds < 2 ^ 64 then some (digitsToNat ds) else none
      | none => none) = some (digitsToNat ds)
    rw [hfind]
    exact if_pos hlt
  · decide

/-- Witness for the amended C2 theorem at the concrete S2 digits 4000. -/
theorem extract_delay_spec_witness :
    extract_delay (String.mk ("submit();".toList ++
        '\n' :: ([' '] ++ '\x7d' :: ',' :: ([' '] ++ (['4', '0', '0', '0'] ++ [')']))))) =
        some (digitsToNat ['4', '0', '0', '0']) ∧
      extract_delay
        "<script>setTimeout(function()\x7b submit();\n                \x7d, 4000);</script>" =
        some 4000 :=
  extract_delay_spec ['4', '0', '0', '0'] [' '] [' '] (by decide) (by decide) (by decide)
    (by decide) (by decide)

/-- Challenge categories recognised by the detector (`ChallengeType`). -/
inductive ChallengeType where
  | javascriptV1
  | javascriptV2
  | managedV3
  | turnstile
  | rateLimit
  | accessDenied
  | botManagement
  | unknown
deriving DecidableEq

/-- Recommended response strategy for a detection (`ResponseStrategy`). -/
inductive ResponseStrategy where
  | jsExecution
  | advancedJsExecution
  | browserSimulation
  | captchaSolving
  | delayRetry
  | proxyRotation
  | enhancedEvasion
  | none
deriving DecidableEq

/-- Compiled regex paired with its source text; the matcher function models
the external `regex` crate's `is_match` on the response body. -/
structure RegexM where
  src : String
  is_match : String → Bool

/-- Pattern definition for a known challenge signature (`ChallengePattern`). -/
structure ChallengePattern where
  id : String
  name : String
  challenge_type : ChallengeType
  response_strategy : ResponseStrategy
  base_confidence : ℚ
  patterns : List RegexM
  adaptive : Bool

/-- Saturating success statistics for one pattern id (`PatternStats`). -/
structure PatternStats where
  attempts : Nat
  successes : Nat

/-- Success rate of a pattern: zero with no attempts, else
successes / attempts (`PatternStats::success_rate`). -/
def PatternStats.success_rate (s : PatternStats) : ℚ :=
  if s.attempts = 0 then 0 else (s.successes : ℚ) / (s.attempts : ℚ)

/-- One entry of the bounded detection history (`DetectionRecord`). -/
structure DetectionRecord where
  timestamp : Nat
  pattern_id : String
  confidence : ℚ
  url : String

/-- Detection output returned to the pipeline (`ChallengeDetection`). -/
structure ChallengeDetection where
  pattern_id : String
  pattern_name : String
  challenge_type : ChallengeType
  response_strategy : ResponseStrategy
  confidence : ℚ
  is_adaptive : Bool
  status_code : Nat
  url : String
  matched_indicators : List String

/-- Pattern-based challenge detector with adaptive learning support
(`ChallengeDetector`). -/
structure ChallengeDetector where
  known_patterns : List ChallengePattern
  adaptive_patterns : List (String × List ChallengePattern)
  stats : List (String × PatternStats)
  history : List DetectionRecord
  max_history : Nat

/-- Score one pattern against a response
(`ChallengeDetector::evaluate_pattern`): collect the regexes that match the
body; skip on zero matches; confidence is
`(matches / total) * base_confidence` plus `0.1 * success_rate` when stats
exist, capped at 1; reject below 0.5. -/
def ChallengeDetector.evaluate_pattern (d : ChallengeDetector) (p : ChallengePattern)
    (r : ChallengeResponse) : Option (ℚ × List String) :=
  let ms := p.patterns.filter (fun rx => rx.is_match r.body)
  if ms.isEmpty then none
  else
    let total : ℚ := (p.patterns.length : ℚ)
    let base := ((ms.length : ℚ) / total) * p.base_confidence
    let conf₀ :=
      match alookup d.stats p.id with
      | some s => base + s.success_rate * (1 / 10)
      | none => base
    let conf := min conf₀ 1
    if conf < 1 / 2 then none else some (conf, ms.map (fun rx => rx.src))

/-- Candidate gate (`ChallengeDetector::is_cloudflare_challenge`): the
Server header must be Cloudflare and the status one of 403, 429, 503. -/
def ChallengeDetector.is_cloudflare_challenge (_d : ChallengeDetector)
    (r : ChallengeResponse) : Bool :=
  is_cloudflare_response r && (r.status == 403 || r.status == 429 || r.status == 503)

/-- Build the detection record for a scored pattern. -/
def mkDetection (p : ChallengePattern) (adaptiveFlag : Bool) (r : ChallengeResponse)
    (conf : ℚ) (matched : List String) : ChallengeDetection :=
  { pattern_id := p.id, pattern_name := p.name, challenge_type := p.challenge_type,
    response_strategy := p.response_strategy, confidence := conf,
    is_adaptive := adaptiveFlag, status_code := r.status, url := r.url,
    matched_indicators := matched }

/-- The replacement test used in `detect`'s loops:
`best.is_none_or(|(_, current)| confidence > *current)`. -/
def betterThan (best : Option (ChallengeDetection × ℚ)) (conf : ℚ) : Bool :=
  match best with
  | none => true
  | some b => decide (b.2 < conf)

/-- One of `detect`'s two scoring loops, threading the current best
detection through a pattern list. -/
def foldPatterns (d : ChallengeDetector) (r : ChallengeResponse)
    (adaptiveOf : ChallengePattern → Bool) :
    List ChallengePattern → Option (ChallengeDetection × ℚ) → Option (ChallengeDetection × ℚ)
  | [], best => best
  | p :: ps, best =>
    let best' :=
      match d.evaluate_pattern p r with
      | some e =>
        if betterThan best e.1 then some (mkDetection p (adaptiveOf p) r e.1 e.2, e.1)
        else best
      | none => best
    foldPatterns d r adaptiveOf ps best'

/-- Normalised domain of a response (`response_domain`). -/
def response_domain (r : ChallengeResponse) : Option String :=
  r.url_host.map (fun h => h.toLower)

/-- Append a detection to the bounded history, dropping the oldest entry at
the cap (`ChallengeDetector::record_detection`). -/
def ChallengeDetector.record_detection (d : ChallengeDetector) (now : Nat)
    (det : ChallengeDetection) : ChallengeDetector :=
  let h := if d.history.length == d.max_history then d.history.drop 1 else d.history
  let entry : DetectionRecord :=
    { timestamp := now, pattern_id := det.pattern_id, confidence := det.confidence,
      url := det.url }
  { d with history := h ++ [entry] }

/-- The best candidate of a detection pass: score the static catalog, then
any adaptive patterns registered for the response's domain, threading the
strictly-best detection (the two loops of `ChallengeDetector::detect`). -/
def ChallengeDetector.detectBest (d : ChallengeDetector) (r : ChallengeResponse) :
    Option (ChallengeDetection × ℚ) :=
  match response_domain r with
  | some dom =>
    match alookup d.adaptive_patterns dom with
    | some ps => foldPatterns d r (fun _ => true) ps
        (foldPatterns d r (fun p => p.adaptive) d.known_patterns none)
    | none => foldPatterns d r (fun p => p.adaptive) d.known_patterns none
  | none => foldPatterns d r (fun p => p.adaptive) d.known_patterns none

/-- Full detection pass (`ChallengeDetector::detect`): gate, pick the best
candidate, and record it in the history.  `now` models
`SystemTime::now()`. -/
def ChallengeDetector.detect (d : ChallengeDetector) (now : Nat) (r : ChallengeResponse) :
    Option ChallengeDetection × ChallengeDetector :=
  if ¬ d.is_cloudflare_challenge r then (none, d)
  else
    match d.detectBest r with
    | some b => (some b.1, d.record_detection now b.1)
    | none => (none, d)

/-- Claim C3: any response whose Server header is not cloudflare-prefixed,
or whose status is outside 403 / 429 / 503, yields no detection. -/
theorem detector_gating (d : ChallengeDetector) (now : Nat) (r : ChallengeResponse)
    (h : (∀ v, alookup r.headers "server" = some v →
            listStartsWith "cloudflare".toList (lowerList v.toList) = false) ∨
         (r.status ≠ 403 ∧ r.status ≠ 429 ∧ r.status ≠ 503)) :
    (d.detect now r).1 = none := by
  have hgate : d.is_cloudflare_challenge r = false := by
    rcases h with h | h
    · have hcf : is_cloudflare_response r = false := by
        unfold is_cloudflare_response
        cases hs : alookup r.headers "server" with
        | none => rfl
        | some v => exact h v hs
      simp [ChallengeDetector.is_cloudflare_challenge, hcf]
    · have : (r.status == 403 || r.status == 429 || r.status == 503) = false := by
        simp [h.1, h.2.1, h.2.2]
      simp [ChallengeDetector.is_cloudflare_challenge, this]
  unfold ChallengeDetector.detect
  rw [hgate]
  simp

/-- Witness for the C3 gating theorem on a concrete nginx 200 response. -/
theorem detector_gating_witness :
    (ChallengeDetector.detect
        { known_patterns := [], adaptive_patterns := [], stats := [], history := [],
          max_history := 1000 } 0
        { url := "https://example.com/", url_host := some "example.com", status := 200,
          headers := [("server", "nginx")], body := "ok" }).1 = none := by
  refine detector_gating _ 0 _ (Or.inl ?_)
  intro v hv
  simp [alookup] at hv
  subst hv
  decide

/-- Learned success rate entering the confidence formula: zero when no
stats have been recorded for the pattern id. -/
def learnedRate (d : ChallengeDetector) (pid : String) : ℚ :=
  match alookup d.stats pid with
  | some s => s.success_rate
  | none => 0

/-- The confidence formula as the specification states it:
`(matches / total) * base_confidence + 0.1 * learned_success_rate`,
clamped to at most 1. -/
def confidenceSpec (d : ChallengeDetector) (p : ChallengePattern)
    (r : ChallengeResponse) : ℚ :=
  min ((((p.patterns.filter (fun rx => rx.is_match r.body)).length : ℚ) /
      (p.patterns.length : ℚ)) * p.base_confidence + learnedRate d p.id * (1 / 10)) 1

/-- Evaluation order of `detect`: the static catalog followed by the
adaptive patterns registered for the response's domain. -/
def evalOrder (d : ChallengeDetector) (r : ChallengeResponse) : List ChallengePattern :=
  d.known_patterns ++
    (match response_domain r with
     | some dom => (alookup d.adaptive_patterns dom).getD []
     | none => [])

/-- Scored candidates in evaluation order: id and confidence of every
pattern that matched and was not rejected. -/
def cands (d : ChallengeDetector) (r : ChallengeResponse)
    (ps : List ChallengePattern) : List (String × ℚ) :=
  ps.filterMap (fun p => (d.evaluate_pattern p r).map (fun e => (p.id, e.1)))

/-- Selection step: keep the incumbent unless strictly beaten. -/
def selStep (b : Option (String × ℚ)) (x : String × ℚ) : Option (String × ℚ) :=
  match b with
  | none => some x
  | some y => if y.2 < x.2 then some x else some y

/-- Strict-improvement selection over a candidate list; the reference form
of `detect`'s best-tracking loops. -/
def selBest (xs : List (String × ℚ)) (b : Option (String × ℚ)) : Option (String × ℚ) :=
  xs.foldl selStep b

/-- Projection of a running best to (pattern id, confidence). -/
def keyOf (b : Option (ChallengeDetection × ℚ)) : Option (String × ℚ) :=
  b.map (fun x => (x.1.pattern_id, x.2))

theorem keyOf_foldPatterns (d : ChallengeDetector) (r : ChallengeResponse)
    (f : ChallengePattern → Bool) :
    ∀ (ps : List ChallengePattern) (b : Option (ChallengeDetection × ℚ)),
      keyOf (foldPatterns d r f ps b) = selBest (cands d r ps) (keyOf b) := by
  intro ps
  induction ps with
  | nil => intro b; rfl
  | cons p ps ih =>
    intro b
    simp only [foldPatterns]
    cases he : d.evaluate_pattern p r with
    | none =>
      rw [ih]
      simp [cands, he]
    | some e =>
      have hc : cands d r (p :: ps) = (p.id, e.1) :: cands d r ps := by
        simp [cands, he]
      rw [ih, hc]
      simp only [selBest, List.foldl_cons]
      congr 1
      cases b with
      | none => simp [betterThan, keyOf, selStep, mkDetection]
      | some y =>
        simp only [betterThan, keyOf, selStep, Option.map_some']
        by_cases hlt : y.2 < e.1
        · simp [hlt, mkDetection]
        · simp [hlt]

/-- Well-formedness of a running best: the stored confidence agrees with
the detection's field. -/
def wfBest : Option (ChallengeDetection × ℚ) → Prop
  | none => True
  | some b => b.1.confidence = b.2

theorem wfBest_foldPatterns (d : ChallengeDetector) (r : ChallengeResponse)
    (f : ChallengePattern → Bool) :
    ∀ (ps : List ChallengePattern) (b : Option (ChallengeDetection × ℚ)),
      wfBest b → wfBest (foldPatterns d r f ps b) := by
  intro ps
  induction ps with
  | nil => intro b hb; exact hb
  | cons p ps ih =>
    intro b hb
    simp only [foldPatterns]
    apply ih
    cases he : d.evaluate_pattern p r with
    | none => exact hb
    | some e =>
      by_cases hbt : betterThan b e.1 = true
      · simp [hbt, wfBest, mkDetection]
      · simp only [Bool.not_eq_true] at hbt
        simp [hbt, hb]

theorem selBest_spec :
    ∀ (xs : List (String × ℚ)) (b : Option (String × ℚ)) (m : String × ℚ),
      selBest xs b = some m →
      (b = some m ∧ ∀ x ∈ xs, x.2 ≤ m.2) ∨
      (∃ t₁ t₂, xs = t₁ ++ m :: t₂ ∧ (∀ x ∈ t₁, x.2 < m.2) ∧
        (∀ y, b = some y → y.2 < m.2) ∧ (∀ x ∈ t₂, x.2 ≤ m.2)) := by
  intro xs
  induction xs with
  | nil =>
    intro b m h
    left
    exact ⟨h, by simp⟩
  | cons x xs ih =>
    intro b m h
    simp only [selBest, List.foldl_cons] at h
    rcases ih (selStep b x) m h with ⟨hb, hall⟩ | ⟨t₁, t₂, hsplit, hltm, hbv, hle⟩
    · cases b with
      | none =>
        right
        have hx : x = m := by simpa [selStep] using hb
        exact ⟨[], xs, by simp [hx], by simp, by simp, hall⟩
      | some y =>
        by_cases hxy : y.2 < x.2
        · right
          have hx : x = m := by simpa [selStep, hxy] using hb
          refine ⟨[], xs, by simp [hx], by simp, ?_, hall⟩
          intro y' hy'
          have heq : y = y' := by simpa using hy'
          subst heq
          exact hx ▸ hxy
        · left
          have hy : y = m := by simpa [selStep, hxy] using hb
          refine ⟨by simp [hy], ?_⟩
          intro z hz
          rcases List.mem_cons.mp hz with rfl | hz
          · exact le_trans (le_of_not_lt hxy) (le_of_eq (congrArg Prod.snd hy))
          · exact hall z hz
    · right
      refine ⟨x :: t₁, t₂, by simp [hsplit], ?_, ?_, hle⟩
      · intro z hz
        rcases List.mem_cons.mp hz with rfl | hz
        · cases b with
          | none => exact hbv z (by simp [selStep])
          | some y =>
            by_cases hxy : y.2 < z.2
            · exact hbv z (by simp [selStep, hxy])
            · exact lt_of_le_of_lt (le_of_not_lt hxy) (hbv y (by simp [selStep, hxy]))
        · exact hltm z hz
      · intro y hy
        subst hy
        cases hsel : selStep (some y) x with
        | none =>
          by_cases hxy : y.2 < x.2 <;> simp [selStep, hxy] at hsel
        | some y' =>
          have hy' := hbv y' hsel
          by_cases hxy : y.2 < x.2
          · have heq : x = y' := by simpa [selStep, hxy] using hsel
            subst heq
            exact lt_trans hxy hy'
          · have heq : y = y' := by simpa [selStep, hxy] using hsel
            subst heq
            exact hy'

theorem detectBest_wf (d : ChallengeDetector) (r : ChallengeResponse) :
    wfBest (d.detectBest r) := by
  unfold ChallengeDetector.detectBest
  split
  · split
    · exact wfBest_foldPatterns d r _ _ _
        (wfBest_foldPatterns d r _ d.known_patterns none trivial)
    · exact wfBest_foldPatterns d r _ d.known_patterns none trivial
  · exact wfBest_foldPatterns d r _ d.known_patterns none trivial

theorem detectBest_key (d : ChallengeDetector) (r : ChallengeResponse) :
    keyOf (d.detectBest r) = selBest (cands d r (evalOrder d r)) none := by
  have hkey0 : keyOf (foldPatterns d r (fun p => p.adaptive) d.known_patterns none) =
      selBest (cands d r d.known_patterns) none := by
    simpa [keyOf] using keyOf_foldPatterns d r (fun p => p.adaptive) d.known_patterns none
  unfold ChallengeDetector.detectBest
  split
  · rename_i dom hdom
    split
    · rename_i ps hps
      have hcands : cands d r (evalOrder d r) =
          cands d r d.known_patterns ++ cands d r ps := by
        simp [evalOrder, hdom, hps, cands]
      rw [hcands]
      rw [show selBest (cands d r d.known_patterns ++ cands d r ps) none =
          selBest (cands d r ps) (selBest (cands d r d.known_patterns) none) by
        simp [selBest]]
      rw [← hkey0]
      exact keyOf_foldPatterns d r (fun _ => true) ps _
    · rename_i hps
      have hev : evalOrder d r = d.known_patterns := by simp [evalOrder, hdom, hps]
      rw [hev]
      exact hkey0
  · rename_i hdom
    have hev : evalOrder d r = d.known_patterns := by simp [evalOrder, hdom]
    rw [hev]
    exact hkey0

theorem detect_key (d : ChallengeDetector) (now : Nat) (r : ChallengeResponse)
    (hg : d.is_cloudflare_challenge r = true) :
    ((d.detect now r).1).map (fun det => (det.pattern_id, det.confidence)) =
      selBest (cands d r (evalOrder d r)) none := by
  have hkey := detectBest_key d r
  have hwf := detectBest_wf d r
  unfold ChallengeDetector.detect
  rw [if_neg (not_not_intro hg)]
  cases hb : d.detectBest r with
  | none =>
    rw [hb] at hkey
    show (Option.map (fun det => (det.pattern_id, det.confidence))
        (none : Option ChallengeDetection)) = selBest (cands d r (evalOrder d r)) none
    simpa [keyOf] using hkey
  | some bb =>
    rw [hb] at hkey hwf
    have hcc : bb.1.confidence = bb.2 := hwf
    show (Option.map (fun det => (det.pattern_id, det.confidence)) (some bb.1)) =
      selBest (cands d r (evalOrder d r)) none
    simp only [Option.map_some']
    rw [hcc]
    simpa [keyOf] using hkey

/-- Claim C4: on a candidate response, a pattern with zero matching
regexes is skipped; otherwise its confidence equals
`(matches / total regexes) * base_confidence + 0.1 * learned success
rate`, clamped to at most 1, and the pattern is rejected below 0.5; the
returned detection carries the maximum confidence among all non-rejected
patterns, with ties resolved in favour of the first pattern evaluated. -/
theorem detector_scoring (d : ChallengeDetector) (now : Nat) (r : ChallengeResponse)
    (p : ChallengePattern) (det : ChallengeDetection) :
    (p.patterns.filter (fun rx => rx.is_match r.body) = [] →
      d.evaluate_pattern p r = none) ∧
    (p.patterns.filter (fun rx => rx.is_match r.body) ≠ [] →
      d.evaluate_pattern p r =
        (if confidenceSpec d p r < 1 / 2 then none
         else some (confidenceSpec d p r,
           (p.patterns.filter (fun rx => rx.is_match r.body)).map (fun rx => rx.src)))) ∧
    ((d.detect now r).1 = some det →
      ∃ t₁ t₂,
        cands d r (evalOrder d r) = t₁ ++ (det.pattern_id, det.confidence) :: t₂ ∧
        (∀ x ∈ t₁, x.2 < det.confidence) ∧ (∀ x ∈ t₂, x.2 ≤ det.confidence)) := by
  refine ⟨?_, ?_, ?_⟩
  · intro hf
    simp [ChallengeDetector.evaluate_pattern, hf]
  · intro hne
    have hie : (p.patterns.filter (fun rx => rx.is_match r.body)).isEmpty = false := by
      cases hf : p.patterns.filter (fun rx => rx.is_match r.body) with
      | nil => exact absurd hf hne
      | cons a l => rfl
    simp only [ChallengeDetector.evaluate_pattern, confidenceSpec, learnedRate, hie,
      Bool.false_eq_true, if_false]
    cases hs : alookup d.stats p.id with
    | some s => simp [hs]
    | none => simp [hs]
  · intro hdet
    have hg : d.is_cloudflare_challenge r = true := by
      by_contra hng
      have hnone : (d.detect now r).1 = none := by
        unfold ChallengeDetector.detect
        rw [if_pos hng]
      rw [hnone] at hdet
      exact Option.noConfusion hdet
    have hkey := detect_key d now r hg
    rw [hdet] at hkey
    simp only [Option.map_some'] at hkey
    rcases selBest_spec (cands d r (evalOrder d r)) none (det.pattern_id, det.confidence)
        hkey.symm with ⟨hb, _⟩ | ⟨t₁, t₂, hsplit, hlt, _, hle⟩
    · exact absurd hb (by simp)
    · exact ⟨t₁, t₂, hsplit, hlt, hle⟩

/-- Fixture pattern for the C4 witness: one always-matching regex,
base confidence 1. -/
def wPattern : ChallengePattern :=
  { id := "cf_iuam_v1", name := "Cloudflare IUAM v1",
    challenge_type := ChallengeType.javascriptV1,
    response_strategy := ResponseStrategy.jsExecution, base_confidence := 1,
    patterns := [{ src := "trace", is_match := fun _ => true }], adaptive := false }

/-- Fixture pattern whose regexes never match. -/
def wNoMatchPattern : ChallengePattern :=
  { wPattern with patterns := [{ src := "x", is_match := fun _ => false }] }

/-- Fixture detector holding only `wPattern`. -/
def wDetector : ChallengeDetector :=
  { known_patterns := [wPattern], adaptive_patterns := [], stats := [], history := [],
    max_history := 1000 }

/-- Fixture Cloudflare 503 response. -/
def wResponse : ChallengeResponse :=
  { url := "https://example.com/", url_host := some "example.com", status := 503,
    headers := [("server", "cloudflare")], body := "challenge" }

theorem wEval : wDetector.evaluate_pattern wPattern wResponse = some (1, ["trace"]) := by
  unfold ChallengeDetector.evaluate_pattern wDetector wPattern
  norm_num [alookup, List.filter]

theorem wDetect : (wDetector.detect 0 wResponse).1 =
    some (mkDetection wPattern false wResponse 1 ["trace"]) := by
  have hg : wDetector.is_cloudflare_challenge wResponse = true := by decide
  have hbest : wDetector.detectBest wResponse =
      some (mkDetection wPattern false wResponse 1 ["trace"], 1) := by
    show foldPatterns wDetector wResponse (fun p => p.adaptive)
        wDetector.known_patterns none =
      some (mkDetection wPattern false wResponse 1 ["trace"], 1)
    rw [show wDetector.known_patterns = [wPattern] from rfl]
    simp only [foldPatterns, wEval, betterThan]
    rfl
  unfold ChallengeDetector.detect
  rw [if_neg (not_not_intro hg), hbest]

/-- Witness for the C4 theorem at a concrete single-pattern detector. -/
theorem detector_scoring_witness :
    (wDetector.evaluate_pattern wNoMatchPattern wResponse = none) ∧
    (wDetector.evaluate_pattern wPattern wResponse =
      (if confidenceSpec wDetector wPattern wResponse < 1 / 2 then none
       else some (confidenceSpec wDetector wPattern wResponse,
         (wPattern.patterns.filter
           (fun rx => rx.is_match wResponse.body)).map (fun rx => rx.src)))) ∧
    (∃ t₁ t₂,
      cands wDetector wResponse (evalOrder wDetector wResponse) =
        t₁ ++ ((mkDetection wPattern false wResponse 1 ["trace"]).pattern_id,
          (mkDetection wPattern false wResponse 1 ["trace"]).confidence) :: t₂ ∧
      (∀ x ∈ t₁, x.2 < (mkDetection wPattern false wResponse 1 ["trace"]).confidence) ∧
      (∀ x ∈ t₂, x.2 ≤ (mkDetection wPattern false wResponse 1 ["trace"]).confidence)) := by
  refine ⟨?_, ?_, ?_⟩
  · exact (detector_scoring wDetector 0 wResponse wNoMatchPattern
      (mkDetection wPattern false wResponse 1 ["trace"])).1 rfl
  · exact (detector_scoring wDetector 0 wResponse wPattern
      (mkDetection wPattern false wResponse 1 ["trace"])).2.1
      (by intro h; exact List.noConfusion h)
  · exact (detector_scoring wDetector 0 wResponse wPattern
      (mkDetection wPattern false wResponse 1 ["trace"])).2.2 wDetect

/-- Non-form mitigation instructions (`MitigationPlan` in
`challenges/solvers/mod.rs`).  `wait` is in seconds. -/
structure MitigationPlan where
  should_retry : Bool
  wait : Option ℚ
  reason : String
  new_proxy : Option String
  headers : List (String × String)
  metadata : List (String × String)

/-- `MitigationPlan::retry_after`: retry after a wait. -/
def MitigationPlan.retry_after (wait : ℚ) (reason : String) : MitigationPlan :=
  { should_retry := true, wait := some wait, reason := reason, new_proxy := none,
    headers := [], metadata := [] }

/-- One pipeline verdict as consumed by the orchestrator's match in
`CloudScraper::request` (`ChallengePipelineResult`). -/
inductive PipelineEval where
  | noChallenge
  | submission
  | mitigation (plan : MitigationPlan)
  | unsupported (reason : String)
  | failed (error : String)

/-- Terminal outcome of the orchestrator loop. -/
inductive RequestOutcome where
  | success
  | mitigationError (plan : MitigationPlan)
  | unsupportedError (reason : String)
  | pipelineError (error : String)

/-- The bounded retry loop of `CloudScraper::request`, abstracted over the
pipeline verdict of each attempt (`evals n` is the verdict after the n-th
network dispatch; attempts count from 1).  Returns the number of dispatches
performed and the terminal outcome.  The loop continues only on a
mitigation plan with `should_retry` while `attempt < max_challenge_attempts`;
otherwise the `Mitigation` error carrying the plan is returned. -/
def requestLoop (maxAttempts : Nat) (evals : Nat → PipelineEval) (attempt : Nat) :
    Nat × RequestOutcome :=
  match evals (attempt + 1) with
  | .mitigation plan =>
    if h : plan.should_retry = true ∧ attempt + 1 < maxAttempts then
      let rest := requestLoop maxAttempts evals (attempt + 1)
      (rest.1 + 1, rest.2)
    else (1, .mitigationError plan)
  | .noChallenge => (1, .success)
  | .submission => (1, .success)
  | .unsupported s => (1, .unsupportedError s)
  | .failed e => (1, .pipelineError e)
termination_by maxAttempts - attempt
decreasing_by omega

/-- `CloudScraperConfig`, restricted to the field the retry bound
concerns. -/
structure CloudScraperConfig where
  max_challenge_attempts : Nat

/-- The `Default` instance for the configuration: three attempts. -/
def cloudScraperConfigDefault : CloudScraperConfig := { max_challenge_attempts := 3 }

/-- `CloudScraperBuilder::with_max_challenge_attempts` clamps to ≥ 1. -/
def with_max_challenge_attempts (c : CloudScraperConfig) (attempts : Nat) :
    CloudScraperConfig :=
  { c with max_challenge_attempts := Nat.max attempts 1 }

theorem requestLoop_count (maxAttempts : Nat) (evals : Nat → PipelineEval) :
    ∀ (fuel attempt : Nat), maxAttempts - attempt ≤ fuel →
      (requestLoop maxAttempts evals attempt).1 ≤ max 1 (maxAttempts - attempt) := by
  intro fuel
  induction fuel with
  | zero =>
    intro attempt h
    unfold requestLoop
    split
    · rename_i plan heq
      rw [dif_neg (by omega : ¬(plan.should_retry = true ∧ attempt + 1 < maxAttempts))]
      simp
    all_goals simp
  | succ n ih =>
    intro attempt h
    unfold requestLoop
    split
    · rename_i plan heq
      by_cases hc : plan.should_retry = true ∧ attempt + 1 < maxAttempts
      · rw [dif_pos hc]
        have hrec := ih (attempt + 1) (by omega)
        have h2 : attempt + 1 < maxAttempts := hc.2
        show (requestLoop maxAttempts evals (attempt + 1)).1 + 1 ≤
          max 1 (maxAttempts - attempt)
        omega
      · rw [dif_neg hc]
        simp
    all_goals simp

theorem requestLoop_exhaust (maxAttempts : Nat) (evals : Nat → PipelineEval)
    (plans : Nat → MitigationPlan)
    (hall : ∀ k, evals k = PipelineEval.mitigation (plans k))
    (hretry : ∀ k, (plans k).should_retry = true) :
    ∀ (fuel attempt : Nat), maxAttempts - attempt ≤ fuel → attempt < maxAttempts →
      requestLoop maxAttempts evals attempt =
        (maxAttempts - attempt, RequestOutcome.mitigationError (plans maxAttempts)) := by
  intro fuel
  induction fuel with
  | zero => intro attempt hf hlt; omega
  | succ n ih =>
    intro attempt hf hlt
    unfold requestLoop
    rw [hall (attempt + 1)]
    show (if h : (plans (attempt + 1)).should_retry = true ∧ attempt + 1 < maxAttempts then
        let rest := requestLoop maxAttempts evals (attempt + 1)
        (rest.1 + 1, rest.2)
      else (1, RequestOutcome.mitigationError (plans (attempt + 1)))) =
      (maxAttempts - attempt, RequestOutcome.mitigationError (plans maxAttempts))
    by_cases hc : attempt + 1 < maxAttempts
    · rw [dif_pos ⟨hretry (attempt + 1), hc⟩, ih (attempt + 1) (by omega) hc]
      show (maxAttempts - (attempt + 1) + 1, RequestOutcome.mitigationError (plans maxAttempts)) = _
      have harith : maxAttempts - (attempt + 1) + 1 = maxAttempts - attempt := by omega
      rw [harith]
    · rw [dif_neg (fun hh => hc hh.2)]
      have heq : attempt + 1 = maxAttempts := by omega
      have h1 : maxAttempts - attempt = 1 := by omega
      rw [heq, h1]

/-- Claim C5: `max_challenge_attempts` defaults to 3 and the builder clamps
it to at least 1; under `1 ≤ maxAttempts` the orchestrator loop performs at
most `maxAttempts` network dispatches; and when every pipeline verdict is a
retryable mitigation plan, the loop performs exactly `maxAttempts`
dispatches and returns the mitigation-required-but-retries-exhausted error
carrying the last plan. -/
theorem orchestrator_retry_bound (maxAttempts : Nat) (evals : Nat → PipelineEval)
    (plans : Nat → MitigationPlan) (hmax : 1 ≤ maxAttempts) :
    cloudScraperConfigDefault.max_challenge_attempts = 3 ∧
    (∀ c n, 1 ≤ (with_max_challenge_attempts c n).max_challenge_attempts) ∧
    (requestLoop maxAttempts evals 0).1 ≤ maxAttempts ∧
    ((∀ k, evals k = PipelineEval.mitigation (plans k)) →
      (∀ k, (plans k).should_retry = true) →
      requestLoop maxAttempts evals 0 =
        (maxAttempts, RequestOutcome.mitigationError (plans maxAttempts))) := by
  refine ⟨rfl, ?_, ?_, ?_⟩
  · intro c n
    exact Nat.le_max_right n 1
  · have hcount := requestLoop_count maxAttempts evals (maxAttempts - 0) 0 le_rfl
    omega
  · intro hall hretry
    have hx := requestLoop_exhaust maxAttempts evals plans hall hretry
      (maxAttempts - 0) 0 le_rfl (by omega)
    simpa using hx

/-- Constant pipeline verdict used by the C5 witness. -/
def wEvals : Nat → PipelineEval :=
  fun _ => PipelineEval.mitigation (MitigationPlan.retry_after 60 "rate_limit")

/-- Constant plan family used by the C5 witness. -/
def wPlans : Nat → MitigationPlan := fun _ => MitigationPlan.retry_after 60 "rate_limit"

/-- Witness for the C5 theorem with three attempts and an always-retry
rate-limit plan. -/
theorem orchestrator_retry_bound_witness :
    cloudScraperConfigDefault.max_challenge_attempts = 3 ∧
    (∀ c n, 1 ≤ (with_max_challenge_attempts c n).max_challenge_attempts) ∧
    (requestLoop 3 wEvals 0).1 ≤ 3 ∧
    ((∀ k, wEvals k = PipelineEval.mitigation (wPlans k)) →
      (∀ k, (wPlans k).should_retry = true) →
      requestLoop 3 wEvals 0 = (3, RequestOutcome.mitigationError (wPlans 3))) :=
  orchestrator_retry_bound 3 wEvals wPlans (by omega)

/-- Per-domain timing telemetry (`TimingState` in `modules/state/mod.rs`).
`consecutive_failures` is a `u8` in the source; we carry the 255 bound
explicitly. -/
structure TimingState where
  success_rate : ℚ
  avg_response_time_secs : ℚ
  consecutive_failures : Nat
  optimal_delay : Option ℚ
  recent_delays : List ℚ

/-- The `Default` instance of `TimingState`. -/
def timingStateDefault : TimingState :=
  { success_rate := 1, avg_response_time_secs := 1, consecutive_failures := 0,
    optimal_delay := none, recent_delays := [] }

/-- `TimingState::apply_boolean_outcome`: EMA the success rate with
α = 0.05; a success resets the consecutive-failure counter, a failure
bumps it with `u8::saturating_add` (which saturates at 255). -/
def TimingState.apply_boolean_outcome (s : TimingState) (success : Bool) : TimingState :=
  let alpha : ℚ := 1 / 20
  let target : ℚ := if success then 1 else 0
  { s with
    success_rate := (1 - alpha) * s.success_rate + alpha * target,
    consecutive_failures :=
      if success then 0 else min (s.consecutive_failures + 1) 255 }

/-- Fold a sequence of boolean outcomes through `apply_boolean_outcome`. -/
def applyOutcomes (s : TimingState) (outcomes : List Bool) : TimingState :=
  outcomes.foldl (fun acc b => acc.apply_boolean_outcome b) s

/-- Claim C7 (counterexample): six consecutive failures from the default
state drive the counter to 6, above the claimed bound of 5. -/
theorem timing_consecutive_failures_cex :
    (applyOutcomes timingStateDefault
        [false, false, false, false, false, false]).consecutive_failures = 6 ∧
      ¬ ((applyOutcomes timingStateDefault
        [false, false, false, false, false, false]).consecutive_failures ≤ 5) := by
  constructor
  · rfl
  · intro h
    simp only [show (applyOutcomes timingStateDefault
        [false, false, false, false, false, false]).consecutive_failures = 6 from rfl] at h
    omega

/-- Claim C7 (amended): the `TimingState` consecutive-failures counter
resets to 0 on a success and, for every sequence of outcomes starting at a
counter ≤ 255, stays in the range [0, 255]: the counter is a `u8` bumped
with `saturating_add(1)`, so it saturates at 255, not at 5. -/
theorem timing_consecutive_failures_bound (s : TimingState) (outcomes : List Bool)
    (h : s.consecutive_failures ≤ 255) :
    (s.apply_boolean_outcome true).consecutive_failures = 0 ∧
      (applyOutcomes s outcomes).consecutive_failures ≤ 255 := by
  constructor
  · rfl
  · induction outcomes generalizing s with
    | nil => exact h
    | cons b bs ih =>
      have hstep : (s.apply_boolean_outcome b).consecutive_failures ≤ 255 := by
        cases b with
        | true => exact Nat.zero_le 255
        | false => exact Nat.min_le_right _ 255
      exact ih (s.apply_boolean_outcome b) hstep

/-- Witness for the amended C7 theorem at the default state. -/
theorem timing_consecutive_failures_bound_witness :
    (timingStateDefault.apply_boolean_outcome true).consecutive_failures = 0 ∧
      (applyOutcomes timingStateDefault [false, true, false]).consecutive_failures ≤ 255 :=
  timing_consecutive_failures_bound timingStateDefault [false, true, false] (by decide)

/-- Proxy rotation strategies (`RotationStrategy`). -/
inductive RotationStrategy where
  | sequential
  | random
  | smart
  | weighted
  | roundRobinSmart

/-- Proxy manager configuration (`ProxyConfig`).  Durations are whole
seconds; instants are natural-number timestamps. -/
structure ProxyConfig where
  rotation_strategy : RotationStrategy
  ban_time : Nat
  failure_threshold : Nat
  cooldown : Nat

/-- The `Default` instance of `ProxyConfig`. -/
def proxyConfigDefault : ProxyConfig :=
  { rotation_strategy := RotationStrategy.sequential, ban_time := 300,
    failure_threshold := 3, cooldown := 60 }

/-- Per-proxy statistics (`ProxyStats`). -/
structure ProxyStats where
  successes : Nat
  failures : Nat
  last_used : Option Nat
  last_failure : Option Nat

/-- The derived `Default` instance of `ProxyStats`. -/
def proxyStatsDefault : ProxyStats :=
  { successes := 0, failures := 0, last_used := none, last_failure := none }

/-- One pool entry (`ProxyEntry`). -/
structure ProxyEntry where
  endpoint : String
  stats : ProxyStats
  banned_until : Option Nat

instance : Inhabited ProxyEntry :=
  ⟨{ endpoint := "", stats := proxyStatsDefault, banned_until := none }⟩

/-- `ProxyEntry::is_available` at the instant `now`: no ban, or an expired
one. -/
def ProxyEntry.is_available (e : ProxyEntry) (now : Nat) : Bool :=
  match e.banned_until with
  | some u => decide (u ≤ now)
  | none => true

/-- `ProxyEntry::score` at the instant `now`:
`0.7 * success_rate + 0.3 * recency`, recency clamped to [0, 1]. -/
def ProxyEntry.score (e : ProxyEntry) (now : Nat) : ℚ :=
  let total := e.stats.successes + e.stats.failures
  let success_rate : ℚ := if total = 0 then 1 else (e.stats.successes : ℚ) / (total : ℚ)
  let recency : ℚ :=
    (match e.stats.last_used with
     | some ts => ((now - ts : Nat) : ℚ)
     | none => 300) / 300
  success_rate * (7 / 10) + min (max recency 0) 1 * (3 / 10)

/-- Proxy manager with rotation policies (`ProxyManager`). -/
structure ProxyManager where
  config : ProxyConfig
  proxies : List ProxyEntry
  current_index : Nat

/-- `ProxyManager::new`. -/
def ProxyManager.new (config : ProxyConfig) : ProxyManager :=
  { config := config, proxies := [], current_index := 0 }

/-- `ProxyManager::add_proxy`: a no-op when an entry with the endpoint
already exists, else push a fresh entry. -/
def ProxyManager.add_proxy (pm : ProxyManager) (endpoint : String) : ProxyManager :=
  if pm.proxies.any (fun e => decide (e.endpoint = endpoint)) then pm
  else { pm with proxies := pm.proxies ++
      [{ endpoint := endpoint, stats := proxyStatsDefault, banned_until := none }] }

/-- `ProxyManager::remove_proxy` (`Vec::retain`). -/
def ProxyManager.remove_proxy (pm : ProxyManager) (proxy : String) : ProxyManager :=
  { pm with proxies := pm.proxies.filter (fun e => decide (e.endpoint ≠ proxy)) }

/-- `ProxyManager::load`: clear the pool, then `add_proxy` each entry. -/
def ProxyManager.load (pm : ProxyManager) (proxies : List String) : ProxyManager :=
  proxies.foldl (fun acc p => acc.add_proxy p) { pm with proxies := [] }

/-- Modify the n-th element of a list in place. -/
def listModify {α : Type} : List α → Nat → (α → α) → List α
  | [], _, _ => []
  | x :: xs, 0, f => f x :: xs
  | x :: xs, n + 1, f => x :: listModify xs n f

/-- The availability scan of `next_proxy` clears expired bans. -/
def unbanExpired (now : Nat) (e : ProxyEntry) : ProxyEntry :=
  match e.banned_until with
  | some u => if u ≤ now then { e with banned_until := none } else e
  | none => e

/-- Indices collected as available by `next_proxy`'s scan: entries with no
ban or an expired one. -/
def availableIndices (now : Nat) (ps : List ProxyEntry) : List Nat :=
  ps.enum.filterMap (fun ie => if ie.2.is_available now then some ie.1 else none)

/-- First index minimising the key (`Iterator::min_by_key` keeps the first
minimum). -/
def minByKeyIdx (key : ProxyEntry → Nat) (ps : List ProxyEntry) : Option Nat :=
  (ps.enum.foldl (fun acc ie =>
    match acc with
    | none => some (ie.1, key ie.2)
    | some jk => if key ie.2 < jk.2 then some (ie.1, key ie.2) else some jk) none).map
    (fun x => x.1)

/-- Last index maximising the score (`Iterator::max_by` keeps the last
maximum; `partial_cmp` failures collapse to `Equal`, also keeping the
later element). -/
def smartPick (now : Nat) (ps : List ProxyEntry) (avail : List Nat) : Nat :=
  match avail with
  | [] => 0
  | a :: rest =>
    rest.foldl (fun best i =>
      if (ps.getD best default).score now ≤ (ps.getD i default).score now then i
      else best) a

/-- `f64::EPSILON`. -/
def f64Epsilon : ℚ := 1 / 2 ^ 52

/-- Linear scan of `weighted_choice_index`. -/
def weightedScan : List (Nat × ℚ) → ℚ → Option Nat
  | [], _ => none
  | iw :: rest, target =>
    if target ≤ iw.2 then some iw.1 else weightedScan rest (target - iw.2)

/-- The weight list of `weighted_choice_index`: scores floored at 0.1. -/
def wciWeights (now : Nat) (ps : List ProxyEntry) (avail : List Nat) : List ℚ :=
  avail.map (fun i => max ((ps.getD i default).score now) (1 / 10))

/-- The weight total of `weighted_choice_index`. -/
def wciTotal (now : Nat) (ps : List ProxyEntry) (avail : List Nat) : ℚ :=
  (wciWeights now ps avail).foldl (fun a w => a + w) 0

/-- `weighted_choice_index`: score-proportional choice.  `randIdx` models
`SliceRandom::choose` and `randTarget total` models
`rng.gen_range(0.0..total)`. -/
def weighted_choice_index (now : Nat) (ps : List ProxyEntry) (avail : List Nat)
    (randIdx : List Nat → Nat) (randTarget : ℚ → ℚ) : Option Nat :=
  if avail.isEmpty then none
  else if wciTotal now ps avail ≤ f64Epsilon then
    some (avail.getD (randIdx avail % avail.length) 0)
  else
    match weightedScan (avail.zip (wciWeights now ps avail))
        (randTarget (wciTotal now ps avail)) with
    | some i => some i
    | none => avail.getLast?

/-- The cooldown filter of the `RoundRobinSmart` strategy: keep the
available indices whose last failure is older than the cooldown. -/
def rrsFiltered (pm : ProxyManager) (ps : List ProxyEntry) (avail : List Nat)
    (now : Nat) : List Nat :=
  avail.filter (fun i =>
    match (ps.getD i default).stats.last_failure with
    | some lf => decide (pm.config.cooldown < now - lf)
    | none => true)

/-- The strategy dispatch of `next_proxy`, returning the selected pool
index and the updated `current_index`. -/
def pickIndex (pm : ProxyManager) (ps : List ProxyEntry) (avail : List Nat) (now : Nat)
    (randIdx : List Nat → Nat) (randTarget : ℚ → ℚ) : Nat × Nat :=
  match pm.config.rotation_strategy with
  | RotationStrategy.sequential =>
    (avail.getD (pm.current_index % avail.length) 0, (pm.current_index + 1) % avail.length)
  | RotationStrategy.random =>
    (avail.getD (randIdx avail % avail.length) 0, pm.current_index)
  | RotationStrategy.smart => (smartPick now ps avail, pm.current_index)
  | RotationStrategy.weighted =>
    ((weighted_choice_index now ps avail randIdx randTarget).getD (avail.getD 0 0),
      pm.current_index)
  | RotationStrategy.roundRobinSmart =>
    let pool := if (rrsFiltered pm ps avail now).isEmpty then avail
      else rrsFiltered pm ps avail now
    (pool.getD (pm.current_index % pool.length) 0, (pm.current_index + 1) % pool.length)

/-- `ProxyManager::next_proxy`: auto-unban expired entries during the
availability scan, pick per strategy (force-unbanning the entry with the
earliest ban expiry when none is available), stamp `last_used`, and return
the endpoint. -/
def ProxyManager.next_proxy (pm : ProxyManager) (now : Nat)
    (randIdx : List Nat → Nat) (randTarget : ℚ → ℚ) : Option String × ProxyManager :=
  if pm.proxies.isEmpty then (none, pm)
  else
    let avail := availableIndices now pm.proxies
    let ps := pm.proxies.map (unbanExpired now)
    if avail.isEmpty then
      match minByKeyIdx (fun e => e.banned_until.getD now) pm.proxies with
      | none => (none, pm)
      | some idx =>
        let ps₁ := listModify ps idx (fun e => { e with banned_until := none })
        let ps₂ := listModify ps₁ idx
          (fun e => { e with stats := { e.stats with last_used := some now } })
        (some ((ps.getD idx default).endpoint), { pm with proxies := ps₂ })
    else
      let sel := pickIndex pm ps avail now randIdx randTarget
      let ps₂ := listModify ps sel.1
        (fun e => { e with stats := { e.stats with last_used := some now } })
      (some ((ps.getD sel.1 default).endpoint),
        { pm with proxies := ps₂, current_index := sel.2 })

/-- The mutation `report_failure` applies to the targeted entry: bump the
failure count, stamp `last_failure`, and ban for `ban_time` whenever the
count is a multiple of `failure_threshold`. -/
def reportFailureEntry (cfg : ProxyConfig) (e : ProxyEntry) (now : Nat) : ProxyEntry :=
  let stats := { e.stats with failures := e.stats.failures + 1, last_failure := some now }
  if (e.stats.failures + 1) % cfg.failure_threshold = 0 then
    { e with stats := stats, banned_until := some (now + cfg.ban_time) }
  else { e with stats := stats }

/-- The mutation `report_success` applies to the targeted entry: bump the
success count and clear any ban. -/
def reportSuccessEntry (e : ProxyEntry) : ProxyEntry :=
  { e with
    stats := { e.stats with successes := e.stats.successes + 1 },
    banned_until := none }

/-- Modify the first entry matching a predicate (`iter_mut().find`). -/
def mapFirst {α : Type} : List α → (α → Bool) → (α → α) → List α
  | [], _, _ => []
  | x :: xs, p, f => if p x then f x :: xs else x :: mapFirst xs p f

/-- `ProxyManager::report_failure`. -/
def ProxyManager.report_failure (pm : ProxyManager) (proxy : String) (now : Nat) :
    ProxyManager :=
  { pm with
    proxies := mapFirst pm.proxies (fun e => decide (e.endpoint = proxy))
        (fun e => reportFailureEntry pm.config e now) }

/-- `ProxyManager::report_success`. -/
def ProxyManager.report_success (pm : ProxyManager) (proxy : String) : ProxyManager :=
  { pm with
    proxies := mapFirst pm.proxies (fun e => decide (e.endpoint = proxy))
        reportSuccessEntry }

/-- Fold a sequence of `report_failure` timestamps through one entry. -/
def applyFailures (cfg : ProxyConfig) (e : ProxyEntry) (ts : List Nat) : ProxyEntry :=
  ts.foldl (fun acc t => reportFailureEntry cfg acc t) e

theorem applyFailures_count (cfg : ProxyConfig) :
    ∀ (ts : List Nat) (e : ProxyEntry),
      (applyFailures cfg e ts).stats.failures = e.stats.failures + ts.length := by
  intro ts
  induction ts with
  | nil => intro e; rfl
  | cons t ts ih =>
    intro e
    have hstep : (reportFailureEntry cfg e t).stats.failures = e.stats.failures + 1 := by
      unfold reportFailureEntry
      by_cases hc : (e.stats.failures + 1) % cfg.failure_threshold = 0
      · rw [if_pos hc]
      · rw [if_neg hc]
    show (applyFailures cfg (reportFailureEntry cfg e t) ts).stats.failures =
      e.stats.failures + (t :: ts).length
    rw [ih, hstep]
    simp only [List.length_cons]
    omega

theorem weighted_choice_index_singleton (now : Nat) (ps : List ProxyEntry)
    (randIdx : List Nat → Nat) (randTarget : ℚ → ℚ) (j : Nat)
    (h : weighted_choice_index now ps [0] randIdx randTarget = some j) : j = 0 := by
  unfold weighted_choice_index at h
  rw [if_neg (by decide : ¬(([0] : List Nat).isEmpty = true))] at h
  by_cases hc : wciTotal now ps [0] ≤ f64Epsilon
  · rw [if_pos hc] at h
    simp [Nat.mod_one] at h
    exact h.symm
  · rw [if_neg hc] at h
    have hzip : ([0].zip (wciWeights now ps [0]) : List (Nat × ℚ)) =
        [(0, max ((ps.getD 0 default).score now) (1 / 10))] := rfl
    rw [hzip] at h
    unfold weightedScan at h
    by_cases ht : randTarget (wciTotal now ps [0]) ≤
        max ((ps.getD 0 default).score now) (1 / 10)
    · rw [if_pos ht] at h
      simpa using h.symm
    · rw [if_neg ht] at h
      unfold weightedScan at h
      simpa using h.symm

theorem pickIndex_singleton (pm : ProxyManager) (ps : List ProxyEntry) (now : Nat)
    (randIdx : List Nat → Nat) (randTarget : ℚ → ℚ) :
    (pickIndex pm ps [0] now randIdx randTarget).1 = 0 := by
  unfold pickIndex
  cases pm.config.rotation_strategy with
  | sequential => simp [Nat.mod_one]
  | random => simp [Nat.mod_one]
  | smart => rfl
  | weighted =>
    show (weighted_choice_index now ps [0] randIdx randTarget).getD ([0].getD 0 0) = 0
    cases hw : weighted_choice_index now ps [0] randIdx randTarget with
    | none => rfl
    | some j =>
      have := weighted_choice_index_singleton now ps randIdx randTarget j hw
      simp [this]
  | roundRobinSmart =>
    show ((if (rrsFiltered pm ps [0] now).isEmpty then [0]
        else rrsFiltered pm ps [0] now).getD
      (pm.current_index % (if (rrsFiltered pm ps [0] now).isEmpty then [0]
        else rrsFiltered pm ps [0] now).length) 0) = 0
    have hcases : rrsFiltered pm ps [0] now = [] ∨ rrsFiltered pm ps [0] now = [0] := by
      unfold rrsFiltered
      simp only [List.filter_cons, List.filter_nil]
      by_cases hp : (match (ps.getD 0 default).stats.last_failure with
          | some lf => decide (pm.config.cooldown < now - lf)
          | none => true) = true
      · right
        rw [if_pos hp]
      · left
        rw [if_neg hp]
    rcases hcases with hf | hf
    · rw [hf]
      simp [Nat.mod_one]
    · rw [hf]
      simp [Nat.mod_one]

theorem next_proxy_after_ban (cfg : ProxyConfig) (stats : ProxyStats) (endpoint : String)
    (idx b now : Nat) (randIdx : List Nat → Nat) (randTarget : ℚ → ℚ) (hb : b ≤ now) :
    (ProxyManager.next_proxy
        { config := cfg,
          proxies := [{ endpoint := endpoint, stats := stats, banned_until := some b }],
          current_index := idx } now randIdx randTarget).1 = some endpoint ∧
      ∀ e' ∈ (ProxyManager.next_proxy
          { config := cfg,
            proxies := [{ endpoint := endpoint, stats := stats, banned_until := some b }],
            current_index := idx } now randIdx randTarget).2.proxies,
        e'.banned_until = none := by
  have havail : availableIndices now
      [{ endpoint := endpoint, stats := stats, banned_until := some b }] = [0] := by
    simp [availableIndices, List.enum, List.enumFrom, List.filterMap,
      ProxyEntry.is_available, hb]
  have hps : ([{ endpoint := endpoint, stats := stats, banned_until := some b }] :
        List ProxyEntry).map (unbanExpired now) =
      [{ endpoint := endpoint, stats := stats, banned_until := none }] := by
    simp [unbanExpired, hb]
  unfold ProxyManager.next_proxy
  rw [if_neg (by simp :
    ¬(([{ endpoint := endpoint, stats := stats, banned_until := some b }] :
      List ProxyEntry).isEmpty = true))]
  rw [havail, hps]
  rw [if_neg (by decide : ¬(([0] : List Nat).isEmpty = true))]
  simp only []
  rw [pickIndex_singleton]
  constructor
  · rfl
  · intro e' he'
    simp only [listModify] at he'
    simp at he'
    rw [he']

/-- Claim C6: whenever the failure count reaches a multiple of
`failure_threshold`, `report_failure` bans the proxy until
`now + ban_time`, so it is unavailable at every instant before the ban
expires; a fresh entry is banned after exactly `failure_threshold`
`report_failure` calls; once the ban has expired, `next_proxy` may select
the proxy again, clearing the ban; and `report_success` clears any active
ban. -/
theorem proxy_ban_cycle (cfg : ProxyConfig) (e : ProxyEntry) (ts : List Nat)
    (t now b idx : Nat) (stats : ProxyStats) (endpoint : String)
    (randIdx : List Nat → Nat) (randTarget : ℚ → ℚ)
    (_hthr : 1 ≤ cfg.failure_threshold) :
    ((e.stats.failures + 1) % cfg.failure_threshold = 0 →
      (reportFailureEntry cfg e now).banned_until = some (now + cfg.ban_time) ∧
      ∀ m, m < now + cfg.ban_time →
        (reportFailureEntry cfg e now).is_available m = false) ∧
    (e.stats.failures = 0 → ts.length + 1 = cfg.failure_threshold →
      (applyFailures cfg e (ts ++ [t])).banned_until = some (t + cfg.ban_time) ∧
      ∀ m, m < t + cfg.ban_time →
        (applyFailures cfg e (ts ++ [t])).is_available m = false) ∧
    (b ≤ now →
      (ProxyManager.next_proxy
          { config := cfg,
            proxies := [{ endpoint := endpoint, stats := stats, banned_until := some b }],
            current_index := idx } now randIdx randTarget).1 = some endpoint ∧
      ∀ e' ∈ (ProxyManager.next_proxy
          { config := cfg,
            proxies := [{ endpoint := endpoint, stats := stats, banned_until := some b }],
            current_index := idx } now randIdx randTarget).2.proxies,
        e'.banned_until = none) ∧
    (reportSuccessEntry e).banned_until = none := by
  have hban : ∀ (e' : ProxyEntry) (t' : Nat),
      (e'.stats.failures + 1) % cfg.failure_threshold = 0 →
      (reportFailureEntry cfg e' t').banned_until = some (t' + cfg.ban_time) ∧
      ∀ m, m < t' + cfg.ban_time →
        (reportFailureEntry cfg e' t').is_available m = false := by
    intro e' t' hc
    have hb : (reportFailureEntry cfg e' t').banned_until = some (t' + cfg.ban_time) := by
      unfold reportFailureEntry
      rw [if_pos hc]
    refine ⟨hb, ?_⟩
    intro m hm
    unfold ProxyEntry.is_available
    rw [hb]
    simpa using Nat.not_le.mpr hm
  refine ⟨hban e now, ?_, fun hb => next_proxy_after_ban cfg stats endpoint idx b now
    randIdx randTarget hb, rfl⟩
  intro hzero hlen
  have hcount : (applyFailures cfg e ts).stats.failures = ts.length := by
    rw [applyFailures_count cfg ts e, hzero]
    omega
  have hmod : ((applyFailures cfg e ts).stats.failures + 1) % cfg.failure_threshold = 0 := by
    rw [hcount, hlen]
    simp [Nat.mod_self]
  have : applyFailures cfg e (ts ++ [t]) =
      reportFailureEntry cfg (applyFailures cfg e ts) t := by
    unfold applyFailures
    rw [List.foldl_append]
    rfl
  rw [this]
  exact hban (applyFailures cfg e ts) t hmod

/-- Witness for the C6 theorem with the default configuration (threshold 3,
ban 300 s) and a fresh proxy failing three times. -/
theorem proxy_ban_cycle_witness :
    ((proxyStatsDefault.failures + 1) % proxyConfigDefault.failure_threshold = 0 →
      (reportFailureEntry proxyConfigDefault
          { endpoint := "p1", stats := proxyStatsDefault, banned_until := none }
          400).banned_until = some (400 + proxyConfigDefault.ban_time) ∧
      ∀ m, m < 400 + proxyConfigDefault.ban_time →
        (reportFailureEntry proxyConfigDefault
          { endpoint := "p1", stats := proxyStatsDefault, banned_until := none }
          400).is_available m = false) ∧
    (proxyStatsDefault.failures = 0 →
      ([10, 20] : List Nat).length + 1 = proxyConfigDefault.failure_threshold →
      (applyFailures proxyConfigDefault
          { endpoint := "p1", stats := proxyStatsDefault, banned_until := none }
          ([10, 20] ++ [30])).banned_until = some (30 + proxyConfigDefault.ban_time) ∧
      ∀ m, m < 30 + proxyConfigDefault.ban_time →
        (applyFailures proxyConfigDefault
          { endpoint := "p1", stats := proxyStatsDefault, banned_until := none }
          ([10, 20] ++ [30])).is_available m = false) ∧
    (330 ≤ 400 →
      (ProxyManager.next_proxy
          { config := proxyConfigDefault,
            proxies := [{ endpoint := "p1", stats := proxyStatsDefault, banned_until := some 330 }],
            current_index := 0 } 400 (fun _ => 0) (fun q => q)).1 = some "p1" ∧
      ∀ e' ∈ (ProxyManager.next_proxy
          { config := proxyConfigDefault,
            proxies := [{ endpoint := "p1", stats := proxyStatsDefault, banned_until := some 330 }],
            current_index := 0 } 400 (fun _ => 0) (fun q => q)).2.proxies,
        e'.banned_until = none) ∧
    (reportSuccessEntry
        { endpoint := "p1", stats := proxyStatsDefault, banned_until := none }).banned_until =
      none :=
  proxy_ban_cycle proxyConfigDefault
    { endpoint := "p1", stats := proxyStatsDefault, banned_until := none }
    [10, 20] 30 400 330 0 proxyStatsDefault "p1" (fun _ => 0) (fun q => q) (by decide)

/-- Pooled endpoints, in order. -/
def ProxyManager.endpoints (pm : ProxyManager) : List String :=
  pm.proxies.map (fun e => e.endpoint)

/-- Pool-changing operations of the proxy manager. -/
inductive ProxyOp where
  | load (ps : List String)
  | add (p : String)
  | remove (p : String)

/-- Apply one pool operation. -/
def applyProxyOp (pm : ProxyManager) (op : ProxyOp) : ProxyManager :=
  match op with
  | ProxyOp.load ps => pm.load ps
  | ProxyOp.add p => pm.add_proxy p
  | ProxyOp.remove p => pm.remove_proxy p

theorem add_proxy_nodup (pm : ProxyManager) (p : String)
    (h : pm.endpoints.Nodup) : (pm.add_proxy p).endpoints.Nodup := by
  unfold ProxyManager.add_proxy
  by_cases hmem : pm.proxies.any (fun e => decide (e.endpoint = p)) = true
  · rw [if_pos hmem]
    exact h
  · rw [if_neg hmem]
    have hnot : p ∉ pm.endpoints := by
      intro hp
      rcases List.mem_map.mp hp with ⟨e, he, heq⟩
      exact hmem (List.any_eq_true.mpr ⟨e, he, by simp [heq]⟩)
    unfold ProxyManager.endpoints at h hnot ⊢
    rw [List.map_append]
    simp only [List.map_cons, List.map_nil]
    exact ((List.perm_append_singleton p (pm.proxies.map (fun e => e.endpoint))).nodup_iff).mpr
      (List.nodup_cons.mpr ⟨hnot, h⟩)

theorem remove_proxy_nodup (pm : ProxyManager) (p : String) (h : pm.endpoints.Nodup) :
    (pm.remove_proxy p).endpoints.Nodup := by
  have h2 : (pm.proxies.map (fun e => e.endpoint)).Nodup := h
  unfold ProxyManager.remove_proxy ProxyManager.endpoints
  exact ((List.filter_sublist pm.proxies).map (fun e => e.endpoint)).nodup h2

theorem foldl_add_nodup (ps : List String) :
    ∀ pm : ProxyManager, pm.endpoints.Nodup →
      ((ps.foldl (fun acc p => acc.add_proxy p) pm).endpoints).Nodup := by
  induction ps with
  | nil => intro pm h; exact h
  | cons p ps ih =>
    intro pm h
    exact ih _ (add_proxy_nodup pm p h)

theorem load_nodup (pm : ProxyManager) (ps : List String) :
    ((pm.load ps).endpoints).Nodup := by
  unfold ProxyManager.load
  exact foldl_add_nodup ps _ (by simp [ProxyManager.endpoints])

theorem foldl_ops_nodup : ∀ (ops : List ProxyOp) (pm : ProxyManager),
    pm.endpoints.Nodup → ((ops.foldl applyProxyOp pm).endpoints).Nodup := by
  intro ops
  induction ops with
  | nil => intro pm h; exact h
  | cons op ops ih =>
    intro pm h
    refine ih _ ?_
    cases op with
    | load ps => exact load_nodup pm ps
    | add q => exact add_proxy_nodup pm q h
    | remove q => exact remove_proxy_nodup pm q h

/-- Claim C10: `add_proxy` is a no-op when an entry with the endpoint
already exists; every load / add / remove operation preserves pairwise
distinctness of the pooled endpoints; and any operation sequence from a
fresh manager keeps them pairwise distinct. -/
theorem proxy_pool_distinct (cfg : ProxyConfig) (pm : ProxyManager) (p : String)
    (op : ProxyOp) (ops : List ProxyOp) (hmem : p ∈ pm.endpoints)
    (hnd : pm.endpoints.Nodup) :
    pm.add_proxy p = pm ∧
    ((applyProxyOp pm op).endpoints).Nodup ∧
    ((ops.foldl applyProxyOp (ProxyManager.new cfg)).endpoints).Nodup := by
  refine ⟨?_, ?_, ?_⟩
  · have hany : pm.proxies.any (fun e => decide (e.endpoint = p)) = true := by
      rcases List.mem_map.mp hmem with ⟨e, he, heq⟩
      exact List.any_eq_true.mpr ⟨e, he, by simp [heq]⟩
    unfold ProxyManager.add_proxy
    rw [if_pos hany]
  · cases op with
    | load ps => exact load_nodup pm ps
    | add q => exact add_proxy_nodup pm q hnd
    | remove q => exact remove_proxy_nodup pm q hnd
  · exact foldl_ops_nodup ops (ProxyManager.new cfg)
      (by simp [ProxyManager.new, ProxyManager.endpoints])

/-- Witness for the C10 theorem at a one-entry pool. -/
theorem proxy_pool_distinct_witness :
    (ProxyManager.add_proxy
        { config := proxyConfigDefault,
          proxies := [{ endpoint := "p1", stats := proxyStatsDefault, banned_until := none }],
          current_index := 0 } "p1" =
      { config := proxyConfigDefault,
        proxies := [{ endpoint := "p1", stats := proxyStatsDefault, banned_until := none }],
        current_index := 0 }) ∧
    ((applyProxyOp
        { config := proxyConfigDefault,
          proxies := [{ endpoint := "p1", stats := proxyStatsDefault, banned_until := none }],
          current_index := 0 } (ProxyOp.add "p2")).endpoints).Nodup ∧
    ((([ProxyOp.load ["a", "b", "a"], ProxyOp.add "b", ProxyOp.remove "a"] :
        List ProxyOp).foldl applyProxyOp
        (ProxyManager.new proxyConfigDefault)).endpoints).Nodup :=
  proxy_pool_distinct proxyConfigDefault
    { config := proxyConfigDefault,
      proxies := [{ endpoint := "p1", stats := proxyStatsDefault, banned_until := none }],
      current_index := 0 } "p1" (ProxyOp.add "p2")
    [ProxyOp.load ["a", "b", "a"], ProxyOp.add "b", ProxyOp.remove "a"]
    (by simp [ProxyManager.endpoints]) (by simp [ProxyManager.endpoints])

/-! ### Rate-limit handler (`challenges/solvers/rate_limit.rs`) -/

/-- A quote character, the regex class composed of the apostrophe and the
double quote in `RATE_LIMIT_RE`. -/
def isQuote (c : Char) : Bool := c = '\'' || c = '"'

/-- Match the tail `class=['"]cf-error-code['"]>1015<` of the first
`RATE_LIMIT_RE` alternative at the head of the stream (case-insensitive,
like the `RegexBuilder` flag). -/
def matchCodeTail (cs : List Char) : Bool :=
  match dropLit "class=".toList cs with
  | none => false
  | some cs1 =>
    match cs1 with
    | [] => false
    | q :: cs2 =>
      isQuote q &&
        (match dropLit "cf-error-code".toList cs2 with
         | none => false
         | some cs3 =>
           match cs3 with
           | [] => false
           | q2 :: cs4 => isQuote q2 && (dropLit ">1015<".toList cs4).isSome)

/-- Scan the gap `[^>]*` between `<span` and `class=`: try the tail at the
current position, else consume one non-`>` character and continue. -/
def spanGapScan : List Char → Bool
  | [] => matchCodeTail []
  | c :: rest => matchCodeTail (c :: rest) || (decide (c ≠ '>') && spanGapScan rest)

/-- The first `RATE_LIMIT_RE` alternative
`<span[^>]*class=['"]cf-error-code['"]>1015<` at the head of the stream. -/
def matchSpan1015At (cs : List Char) : Bool :=
  match dropLit "<span".toList cs with
  | some rest => spanGapScan rest
  | none => false

/-- Any `RATE_LIMIT_RE` alternative at the head of the stream (the third,
`You are being rate limited`, is listed for fidelity although the second
subsumes it). -/
def rlMatchAt (cs : List Char) : Bool :=
  matchSpan1015At cs || (dropLit "rate limited".toList cs).isSome ||
    (dropLit "You are being rate limited".toList cs).isSome

/-- `RATE_LIMIT_RE.is_match`: some position of the body starts a match. -/
def rlScan : List Char → Bool
  | [] => rlMatchAt []
  | c :: rest => rlMatchAt (c :: rest) || rlScan rest

/-- Unit alternation `(second|seconds|minute|minutes|hour|hours)` of
`RATE_LIMIT_DELAY_RE`, in order, returning the multiplier the handler
assigns to the matched unit (singular alternatives come first and are
prefixes of the plurals, so with leftmost-first alternation the plural
arms never fire; they are kept for fidelity). -/
def matchUnitAt (cs : List Char) : Option Nat :=
  if (dropLit "second".toList cs).isSome then some 1
  else if (dropLit "seconds".toList cs).isSome then some 1
  else if (dropLit "minute".toList cs).isSome then some 60
  else if (dropLit "minutes".toList cs).isSome then some 60
  else if (dropLit "hour".toList cs).isSome then some 3600
  else if (dropLit "hours".toList cs).isSome then some 3600
  else none

/-- `RATE_LIMIT_DELAY_RE` at the head of the stream:
`(\d+)\s*(second|...)`, returning the digit capture and the unit
multiplier. -/
def matchDelayUnitAt (cs : List Char) : Option (List Char × Nat) :=
  match takeDigits cs with
  | (ds, rest) =>
    if ds.isEmpty then none
    else (matchUnitAt (skipWs rest)).map (fun m => (ds, m))

/-- Leftmost `RATE_LIMIT_DELAY_RE` match over the body. -/
def rlFindDelay : List Char → Option (List Char × Nat)
  | [] => matchDelayUnitAt []
  | c :: rest => optOr (matchDelayUnitAt (c :: rest)) (rlFindDelay rest)

/-- Backoff adviser for 1015 responses (`RateLimitHandler`); delays are in
seconds. -/
structure RateLimitHandler where
  delay_min : ℚ
  delay_max : ℚ

/-- `RateLimitHandler::new`: the default 60 s - 180 s window. -/
def RateLimitHandler.new : RateLimitHandler :=
  { delay_min := 60, delay_max := 180 }

/-- `RateLimitHandler::with_delay_range`: a max below the min is raised to
the min. -/
def RateLimitHandler.with_delay_range (h : RateLimitHandler) (mn mx : ℚ) :
    RateLimitHandler :=
  { h with delay_min := mn, delay_max := if mx < mn then mn else mx }

/-- `RateLimitHandler::is_rate_limited`. -/
def RateLimitHandler.is_rate_limited (r : ChallengeResponse) : Bool :=
  is_cloudflare_response r && (r.status == 429) && rlScan r.body.toList

/-- Strip Unicode whitespace from both ends (`str::trim`). -/
def trimChars (cs : List Char) : List Char :=
  (skipWs (skipWs cs).reverse).reverse

/-- Decimal parser modelling the subset of `str::parse::<f64>` exercised
by `Retry-After` values: digits with an optional fractional part.
Exponent, `inf` and `nan` spellings are not modelled (the latter two
would be discarded by the handler's `is_finite` filter); values are
ideal rationals. -/
def parseDecAbs (cs : List Char) : Option ℚ :=
  match takeDigits cs with
  | (ds, rest) =>
    match rest with
    | [] => if ds.isEmpty then none else some ((digitsToNat ds : ℚ))
    | '.' :: rest2 =>
      (match takeDigits rest2 with
       | (fs, rest3) =>
         if rest3.isEmpty && !(ds.isEmpty && fs.isEmpty) then
           some ((digitsToNat ds : ℚ) + (digitsToNat fs : ℚ) / (10 : ℚ) ^ fs.length)
         else none)
    | _ => none

/-- Signed decimal (`parse::<f64>` with an optional leading sign). -/
def parseF64 : List Char → Option ℚ
  | '+' :: rest => parseDecAbs rest
  | '-' :: rest => (parseDecAbs rest).map (fun q => -q)
  | cs => parseDecAbs cs

/-- The numeric branch of `retry_after_header`: parse the trimmed raw
value as a number and keep it when finite and non-negative. -/
def numericRetrySecs (raw : String) : Option ℚ :=
  match parseF64 (trimChars raw.toList) with
  | some q => if 0 ≤ q then some q else none
  | none => none

/-- `RateLimitHandler::retry_after_header`.  `dateDelta` models the chrono
RFC 2822 / RFC 3339 parse of the trimmed value followed by
`(date - Utc::now()).to_std()` (which fails on a past date). -/
def RateLimitHandler.retry_after_header (r : ChallengeResponse)
    (dateDelta : String → Option ℚ) : Option ℚ :=
  match alookup r.headers "retry-after" with
  | none => none
  | some raw =>
    optOr (numericRetrySecs raw) (dateDelta (String.mk (trimChars raw.toList)))

/-- `RateLimitHandler::delay_from_body`: parse the leftmost
`RATE_LIMIT_DELAY_RE` match; `parse::<u64>` fails on a value of 2^64 or
more, and the second product is u64 multiplication. -/
def RateLimitHandler.delay_from_body (body : String) : Option ℚ :=
  match rlFindDelay body.toList with
  | none => none
  | some (ds, mult) =>
    if digitsToNat ds < 2 ^ 64 then
      some (((digitsToNat ds * mult) % 2 ^ 64 : Nat))
    else none

/-- `RateLimitHandler::random_delay`; `sample` models
`rng.gen_range(min..max)`. -/
def RateLimitHandler.random_delay (h : RateLimitHandler) (sample : ℚ) : ℚ :=
  if h.delay_max ≤ h.delay_min then h.delay_min else sample

/-- `RateLimitHandler::determine_delay`: header, then body, then the
random default, tagging the source. -/
def RateLimitHandler.determine_delay (h : RateLimitHandler)
    (r : ChallengeResponse) (dateDelta : String → Option ℚ) (sample : ℚ) :
    ℚ × String :=
  match RateLimitHandler.retry_after_header r dateDelta with
  | some d => (d, "header")
  | none =>
    match RateLimitHandler.delay_from_body r.body with
    | some d => (d, "body")
    | none => (h.random_delay sample, "default")

/-- The plan built on the success path of `RateLimitHandler::plan`:
`MitigationPlan::retry_after` with the two metadata inserts. -/
def rlPlanned (h : RateLimitHandler) (r : ChallengeResponse)
    (dateDelta : String → Option ℚ) (sample : ℚ) : MitigationPlan :=
  { MitigationPlan.retry_after
      (RateLimitHandler.determine_delay h r dateDelta sample).1 "rate_limit" with
    metadata :=
      insertReplace
        (insertReplace
          (MitigationPlan.retry_after
            (RateLimitHandler.determine_delay h r dateDelta sample).1
            "rate_limit").metadata
          "delay_source"
          (RateLimitHandler.determine_delay h r dateDelta sample).2)
        "trigger" "cf_1015" }

/-- The `record_failure` calls `RateLimitHandler::plan` issues: one
against the response host when a recorder is attached and the URL has a
host. -/
def rlRecorded (hasRecorder : Bool) (r : ChallengeResponse) :
    List (String × String) :=
  if hasRecorder then
    match r.url_host with
    | some domain => [(domain, "cf_rate_limit")]
    | none => []
  else []

/-- `RateLimitHandler::plan`.  The second component collects the
`record_failure` calls issued to the optional recorder; `hasRecorder`
models `state_recorder.is_some()`; `none` is the `NotRateLimited`
error. -/
def RateLimitHandler.plan (h : RateLimitHandler) (r : ChallengeResponse)
    (hasRecorder : Bool) (dateDelta : String → Option ℚ) (sample : ℚ) :
    Option (MitigationPlan × List (String × String)) :=
  if RateLimitHandler.is_rate_limited r then
    some (rlPlanned h r dateDelta sample, rlRecorded hasRecorder r)
  else none

/-- Claim C8: on a detected 1015 rate-limit response the plan always sets
should_retry, reason rate_limit and a wait; it records a cf_rate_limit
failure against the response host exactly when a recorder is attached;
the wait and the delay_source metadata come from the preference order
header (numeric Retry-After seconds, else date delta), then body
(number times second / minute / hour multiplier), then a random draw in
the default 60-180 s window. -/
theorem rate_limit_plan_spec (h : RateLimitHandler) (r : ChallengeResponse)
    (hasRecorder : Bool) (dateDelta : String → Option ℚ) (sample : ℚ)
    (hrl : RateLimitHandler.is_rate_limited r = true) :
    ∃ p recs,
      RateLimitHandler.plan h r hasRecorder dateDelta sample = some (p, recs) ∧
      p.should_retry = true ∧
      p.reason = "rate_limit" ∧
      p.wait = some (RateLimitHandler.determine_delay h r dateDelta sample).1 ∧
      alookup p.metadata "delay_source" =
        some (RateLimitHandler.determine_delay h r dateDelta sample).2 ∧
      alookup p.metadata "trigger" = some "cf_1015" ∧
      recs = (if hasRecorder then
                match r.url_host with
                | some domain => [(domain, "cf_rate_limit")]
                | none => []
              else []) ∧
      (∀ d, RateLimitHandler.retry_after_header r dateDelta = some d →
        RateLimitHandler.determine_delay h r dateDelta sample = (d, "header")) ∧
      (RateLimitHandler.retry_after_header r dateDelta = none →
        ∀ d, RateLimitHandler.delay_from_body r.body = some d →
          RateLimitHandler.determine_delay h r dateDelta sample = (d, "body")) ∧
      (RateLimitHandler.retry_after_header r dateDelta = none →
        RateLimitHandler.delay_from_body r.body = none →
          RateLimitHandler.determine_delay h r dateDelta sample =
            (RateLimitHandler.random_delay h sample, "default")) ∧
      (h = RateLimitHandler.new → 60 ≤ sample → sample < 180 →
        60 ≤ RateLimitHandler.random_delay h sample ∧
          RateLimitHandler.random_delay h sample < 180) := by
  refine ⟨rlPlanned h r dateDelta sample, rlRecorded hasRecorder r,
    ?_, ?_, ?_, ?_, ?_, ?_, rfl, ?_, ?_, ?_, ?_⟩
  · unfold RateLimitHandler.plan
    rw [if_pos hrl]
  · rfl
  · rfl
  · rfl
  · simp [rlPlanned, MitigationPlan.retry_after, insertReplace, alookup]
  · simp [rlPlanned, MitigationPlan.retry_after, insertReplace, alookup]
  · intro d hd
    unfold RateLimitHandler.determine_delay
    rw [hd]
  · intro hnone d hd
    unfold RateLimitHandler.determine_delay
    rw [hnone, hd]
  · intro hnone hbody
    unfold RateLimitHandler.determine_delay
    rw [hnone, hbody]
  · intro heq h1 h2
    subst heq
    unfold RateLimitHandler.random_delay
    rw [if_neg (by norm_num [RateLimitHandler.new])]
    exact ⟨by simpa [RateLimitHandler.new] using h1,
      by simpa [RateLimitHandler.new] using h2⟩

/-- The S4 fixture: a Cloudflare 429 carrying the 1015 error-code span
and Retry-After 120. -/
def wRateResponse : ChallengeResponse :=
  { url := "https://example.com/rate-limited",
    url_host := some "example.com",
    status := 429,
    headers := [("server", "cloudflare"), ("retry-after", "120")],
    body := "<span class=\"cf-error-code\">1015< You are being rate limited" }

/-- Witness for the C8 theorem at the S4 fixture. -/
theorem rate_limit_plan_spec_witness :
    ∃ p recs,
      RateLimitHandler.plan RateLimitHandler.new wRateResponse true
          (fun _ => none) 90 = some (p, recs) ∧
      p.should_retry = true ∧
      p.reason = "rate_limit" ∧
      p.wait = some (RateLimitHandler.determine_delay RateLimitHandler.new
        wRateResponse (fun _ => none) 90).1 ∧
      alookup p.metadata "delay_source" =
        some (RateLimitHandler.determine_delay RateLimitHandler.new
          wRateResponse (fun _ => none) 90).2 ∧
      alookup p.metadata "trigger" = some "cf_1015" ∧
      recs = (if true then
                match wRateResponse.url_host with
                | some domain => [(domain, "cf_rate_limit")]
                | none => []
              else []) ∧
      (∀ d, RateLimitHandler.retry_after_header wRateResponse
          (fun _ => none) = some d →
        RateLimitHandler.determine_delay RateLimitHandler.new wRateResponse
          (fun _ => none) 90 = (d, "header")) ∧
      (RateLimitHandler.retry_after_header wRateResponse (fun _ => none) = none →
        ∀ d, RateLimitHandler.delay_from_body wRateResponse.body = some d →
          RateLimitHandler.determine_delay RateLimitHandler.new wRateResponse
            (fun _ => none) 90 = (d, "body")) ∧
      (RateLimitHandler.retry_after_header wRateResponse (fun _ => none) = none →
        RateLimitHandler.delay_from_body wRateResponse.body = none →
          RateLimitHandler.determine_delay RateLimitHandler.new wRateResponse
            (fun _ => none) 90 =
            (RateLimitHandler.random_delay RateLimitHandler.new 90, "default")) ∧
      (RateLimitHandler.new = RateLimitHandler.new → 60 ≤ (90 : ℚ) → (90 : ℚ) < 180 →
        60 ≤ RateLimitHandler.random_delay RateLimitHandler.new 90 ∧
          RateLimitHandler.random_delay RateLimitHandler.new 90 < 180) :=
  rate_limit_plan_spec RateLimitHandler.new wRateResponse true (fun _ => none) 90
    (by decide)

/-! ### Adaptive timing (`modules/adaptive_timing/mod.rs`) -/

/-- Behaviour profiles (`BehaviorProfile`). -/
inductive BehaviorProfile where
  | casual
  | focused
  | research
  | mobile

/-- High-level request kinds (`RequestKind`). -/
inductive RequestKind where
  | get
  | post
  | put
  | patch
  | delete
  | head
  | options
  | other

/-- `RequestKind::delay_multiplier` (1.35, 0.9, 0.6, 1.0 as rationals). -/
def RequestKind.delay_multiplier : RequestKind → ℚ
  | .post | .put | .patch => 27 / 20
  | .delete => 9 / 10
  | .head | .options => 3 / 5
  | _ => 1

/-- Base timing envelope of a profile (`TimingProfile`); delays are in
seconds, idealised as rationals. -/
structure TimingProfile where
  base_delay : ℚ
  min_delay : ℚ
  max_delay : ℚ
  variance_factor : ℚ
  burst_threshold : Nat
  cooldown_multiplier : ℚ
  success_rate_threshold : ℚ

/-- `TimingProfile::clamp`: `value.clamp(min_delay, max_delay)`. -/
def TimingProfile.clamp (p : TimingProfile) (value : ℚ) : ℚ :=
  min (max value p.min_delay) p.max_delay

/-- The four built-in profiles installed by `DefaultAdaptiveTiming::new`;
the private map is never written afterwards, so the active profile is
always one of these. -/
def profilesNew : BehaviorProfile → TimingProfile
  | .casual =>
    { base_delay := 3 / 2, min_delay := 1 / 2, max_delay := 3,
      variance_factor := 2 / 5, burst_threshold := 3,
      cooldown_multiplier := 3 / 2, success_rate_threshold := 4 / 5 }
  | .focused =>
    { base_delay := 9 / 10, min_delay := 1 / 4, max_delay := 2,
      variance_factor := 3 / 10, burst_threshold := 5,
      cooldown_multiplier := 6 / 5, success_rate_threshold := 17 / 20 }
  | .research =>
    { base_delay := 5 / 2, min_delay := 1, max_delay := 6,
      variance_factor := 3 / 5, burst_threshold := 2,
      cooldown_multiplier := 2, success_rate_threshold := 7 / 10 }
  | .mobile =>
    { base_delay := 6 / 5, min_delay := 2 / 5, max_delay := 3,
      variance_factor := 2 / 5, burst_threshold := 4,
      cooldown_multiplier := 13 / 10, success_rate_threshold := 3 / 4 }

/-- Request metadata handed to the strategy (`TimingRequest`). -/
structure TimingRequest where
  kind : RequestKind
  content_length : Nat

/-- Per-domain learned state (`DomainTimingState`); `Instant`s are
timestamps in seconds. -/
structure DomainTimingState where
  success_rate : ℚ
  consecutive_failures : Nat
  average_response_time : ℚ
  optimal_timing : Option ℚ
  last_request : Option ℚ
  recent_delays : List ℚ

/-- Hourly base of `circadian_multiplier`. -/
def circadian_base (hour : Nat) : ℚ :=
  if hour = 0 then 3 / 10
  else if 1 ≤ hour ∧ hour ≤ 3 then 1 / 5
  else if hour = 4 then 3 / 10
  else if hour = 5 then 2 / 5
  else if hour = 6 then 3 / 5
  else if hour = 7 then 4 / 5
  else if hour = 8 then 9 / 10
  else if 9 ≤ hour ∧ hour ≤ 11 then 1
  else if hour = 12 then 9 / 10
  else if hour = 13 then 3 / 4
  else if hour = 14 then 17 / 20
  else if hour = 15 ∨ hour = 16 then 1
  else if hour = 17 then 9 / 10
  else if hour = 18 then 4 / 5
  else if hour = 19 then 7 / 10
  else if hour = 20 then 3 / 5
  else if hour = 21 then 1 / 2
  else if hour = 22 then 2 / 5
  else if hour = 23 then 3 / 10
  else 1 / 2

/-- `DefaultAdaptiveTiming::apply_human_jitter`.  The sampled values are
explicit: `reading_speed` in [200,300], `processing` in [0.5,2],
`reaction` in [0.15,0.4], `distract_roll` a unit draw, `distraction` in
[5,60]. -/
def apply_human_jitter (delay : ℚ) (profile : TimingProfile)
    (content_length : Nat) (reading_speed processing reaction distract_roll
      distraction : ℚ) : ℚ :=
  let d1 :=
    if 500 < content_length then
      max delay ((max ((content_length : ℚ) / 5) 1) / reading_speed * 60 + processing)
    else delay
  let d2 := d1 + reaction
  let d3 := if distract_roll < 1 / 20 then d2 + distraction else d2
  profile.clamp d3

/-- The delay accumulated by `calculate_delay` just before the final
`profile.clamp`: base times kind multiplier, variance, success-rate
penalty, consecutive-failure penalty, optimal-timing blend, response
factor, human jitter, circadian division and minimum spacing.  All
sampled and clock values are explicit parameters. -/
def rawDelay (active : BehaviorProfile) (state : DomainTimingState)
    (request : TimingRequest) (variance reading_speed processing reaction
      distract_roll distraction : ℚ) (circadian_hour : Nat)
    (circadian_roll : ℚ) (now : ℚ) : ℚ :=
  let profile := profilesNew active
  let d1 := profile.base_delay * request.kind.delay_multiplier * variance
  let d2 :=
    if state.success_rate < profile.success_rate_threshold then
      d1 * (1 + max (profile.success_rate_threshold - state.success_rate) (1 / 20))
    else d1
  let d3 :=
    if 0 < state.consecutive_failures then
      d2 * (1 + (state.consecutive_failures : ℚ) * (1 / 5))
    else d2
  let d4 :=
    match state.optimal_timing with
    | some optimal => d3 * (4 / 5) + optimal * (1 / 5)
    | none => d3
  let d5 := d4 * (min (max state.average_response_time (3 / 5)) (3 / 2))
  let d6 := apply_human_jitter d5 profile request.content_length
    reading_speed processing reaction distract_roll distraction
  let circadian := max (circadian_base circadian_hour * circadian_roll) (1 / 5)
  let d7 := d6 / circadian
  match state.last_request with
  | some last =>
    let min_spacing := profile.min_delay * (3 / 5)
    let elapsed := max (now - last) 0
    if elapsed ≤ min_spacing then max d7 (min_spacing - elapsed) else d7
  | none => d7

/-- `DefaultAdaptiveTiming::calculate_delay`: the returned duration is the
profile clamp of the accumulated delay, and the domain state is stamped
with the request time. -/
def calculate_delay (active : BehaviorProfile) (state : DomainTimingState)
    (request : TimingRequest) (variance reading_speed processing reaction
      distract_roll distraction : ℚ) (circadian_hour : Nat)
    (circadian_roll : ℚ) (now : ℚ) : ℚ × DomainTimingState :=
  ((profilesNew active).clamp
      (rawDelay active state request variance reading_speed processing
        reaction distract_roll distraction circadian_hour circadian_roll now),
    { state with last_request := some now })

/-- Claim C9: for every active behaviour profile, learned domain state,
request and draw of the sampled values, the delay returned by
`calculate_delay` lies between the profile's min_delay and max_delay:
the final operation is the profile clamp and every built-in profile has
min_delay at most max_delay. -/
theorem adaptive_timing_clamp (active : BehaviorProfile)
    (state : DomainTimingState) (request : TimingRequest)
    (variance reading_speed processing reaction distract_roll
      distraction : ℚ) (circadian_hour : Nat) (circadian_roll : ℚ)
    (now : ℚ) :
    (profilesNew active).min_delay ≤
      (calculate_delay active state request variance reading_speed processing
        reaction distract_roll distraction circadian_hour circadian_roll
        now).1 ∧
    (calculate_delay active state request variance reading_speed processing
        reaction distract_roll distraction circadian_hour circadian_roll
        now).1 ≤ (profilesNew active).max_delay := by
  constructor
  · show (profilesNew active).min_delay ≤
      (profilesNew active).clamp (rawDelay active state request variance
        reading_speed processing reaction distract_roll distraction
        circadian_hour circadian_roll now)
    unfold TimingProfile.clamp
    refine le_min (le_max_right _ _) ?_
    cases active <;> norm_num [profilesNew]
  · exact min_le_right _ _

end Cloudscraper
